import Mathlib

/-!
Verification of the obsidian-zeplin-sync repository against its specification.

The repository syncs design data (projects, screens, components, colors, text
styles) from the Zeplin web API into a note-taking vault (two adapters: an
Obsidian file-tree adapter in `src/utils/retry.ts` and a Logseq block-tree
adapter in `src/sync/synchronizer.ts`, `src/index.ts`).  This file gives a
shallow embedding of the relevant code: pure functions become Lean functions,
the stateful Logseq block/page store becomes explicit state passing, fallible
operations return `Except`/`Option`.  JavaScript numbers that only ever hold
exact small values are modelled as `Nat`/`Int`/`Rat`; strings are modelled as
Lean `String` (sequences of code points).
-/

namespace ZeplinSync

/-! ## Property values and property lists

Logseq block/page properties are JS objects with string keys.  The values the
plugin stores are strings and numeric timestamps. -/

inductive PVal where
  | str (s : String)
  | num (n : Nat)
deriving DecidableEq, Repr

abbrev Props := List (String × PVal)

/-- Lookup of a property by key (first binding wins, as in a JS object where
each key occurs at most once; `setProp` below preserves that shape). -/
def lookupProp (ps : Props) (k : String) : Option PVal :=
  (ps.find? (fun kv => kv.1 = k)).map (·.2)

/-- JS object update `{...ps, k: v}`: overwrite the binding of `k` in place if
present, otherwise append it. -/
def setProp (ps : Props) (k : String) (v : PVal) : Props :=
  if ps.any (fun kv => kv.1 = k) then
    ps.map (fun kv => if kv.1 = k then (k, v) else kv)
  else
    ps ++ [(k, v)]

/-! ## Zeplin API data model (src/types/zeplin.ts)

`ZeplinAsset.width`/`height` are never read by the code under verification and
are omitted.  `ZEntity` is the common shape of `ZeplinComponent` and
`ZeplinScreen` (the TS code treats them as a union in `extractImageUrl`);
components simply have `tags = none`. -/

structure Thumbnails where
  small : Option String
  medium : Option String
  large : Option String
deriving DecidableEq, Repr

structure ZAsset where
  url : Option String
  original_url : Option String
  thumbnails : Option Thumbnails
deriving DecidableEq, Repr

structure ZLatestVersion where
  image : Option ZAsset
deriving DecidableEq, Repr

structure ZSection where
  id : String
  name : String
deriving DecidableEq, Repr

structure ZEntity where
  id : String
  name : String
  description : Option String
  image : Option ZAsset
  images : Option (List ZAsset)
  latest_version : Option ZLatestVersion
  created : Nat
  updated : Nat
  «section» : Option ZSection
  tags : Option (List String)
deriving DecidableEq, Repr

structure ZeplinProject where
  id : String
  name : String
  platform : String
  status : String
  number_of_screens : Nat
  number_of_components : Nat
  number_of_text_styles : Nat
  number_of_colors : Nat
deriving DecidableEq, Repr

structure ZeplinColor where
  id : String
  name : Option String
  r : Rat
  g : Rat
  b : Rat
  a : Rat
deriving DecidableEq, Repr

structure ZeplinTextStyle where
  id : String
  name : String
  font_family : String
  font_size : Nat
  font_weight : Nat
deriving DecidableEq, Repr

/-- JS string truthiness for an optional string field: `undefined` and `""`
are falsy (`if (item.description)` in the source). -/
def strTruthy : Option String → Bool
  | none => false
  | some s => !(s = "")

/-! ## Image resolution (ComponentSynchronizer.extractImageUrl,
src/sync/synchronizer.ts lines 368-411)

The source is a chain of early returns; the first present candidate wins,
which is exactly `Option.orElse`. -/

/-- Step 1-4 of the source: primary image candidates, in source order
large thumbnail, original_url, medium thumbnail, url. -/
def primaryCandidates (a : ZAsset) : Option String :=
  ((a.thumbnails.bind Thumbnails.large) <|> a.original_url)
    <|> ((a.thumbnails.bind Thumbnails.medium) <|> a.url)

/-- Step 5/6 of the source: for the latest-version image and the first entry
of the images array the source checks only large thumbnail, original_url, url
(it does not consult the medium thumbnail there). -/
def secondaryCandidates (a : ZAsset) : Option String :=
  ((a.thumbnails.bind Thumbnails.large) <|> a.original_url) <|> a.url

/-- `item.images && item.images.length > 0 ? item.images[0] : _` -/
def firstImage : Option (List ZAsset) → Option ZAsset
  | some (a :: _) => some a
  | _ => none

/-- Logseq adapter `extractImageUrl` (src/sync/synchronizer.ts 368-411). -/
def extractImageUrl (item : ZEntity) : Option String :=
  (item.image.bind primaryCandidates)
    <|> ((item.latest_version.bind ZLatestVersion.image).bind secondaryCandidates)
    <|> ((firstImage item.images).bind secondaryCandidates)

/-- Obsidian adapter `extractImageUrl` (src/utils/retry.ts 444-458): only the
four primary-image candidates; no latest-version or images-array fallback. -/
def extractImageUrlObsidian (item : ZEntity) : Option String :=
  item.image.bind primaryCandidates

/-! ## Color conversion (rgbaToHex, src/sync/synchronizer.ts 355-363 and
src/utils/retry.ts 463-471; the two copies are identical)

Channels are JS floats; the values reachable here are exact decimals, modelled
as `Rat`.  `Math.round` is round-half-up, i.e. `⌊x + 1/2⌋`. -/

def ratRound (q : Rat) : Int := ⌊q + 1/2⌋

/-- Lowercase hexadecimal digit, as produced by JS `Number.toString(16)`. -/
def hexDigitChar (n : Nat) : Char :=
  if n < 10 then Char.ofNat ('0'.toNat + n) else Char.ofNat ('a'.toNat + (n - 10))

/-- Digits of `n` in base 16, most significant first, lowercase
(JS `n.toString(16)` for a nonnegative integer). -/
def natHexDigits (n : Nat) : List Char :=
  if _h : n < 16 then [hexDigitChar n]
  else natHexDigits (n / 16) ++ [hexDigitChar (n % 16)]
  decreasing_by exact Nat.div_lt_self (by omega) (by omega)

/-- JS `m.toString(16)` for an integer (negative values render with a leading
minus sign; unreachable for in-range channels but part of the function). -/
def intHexStr (m : Int) : String :=
  if m < 0 then "-" ++ String.mk (natHexDigits m.natAbs)
  else String.mk (natHexDigits m.toNat)

/-- Source `toHex`: `Math.round(n * 255).toString(16)` left-padded with `'0'`
when a single digit. -/
def toHexChannel (q : Rat) : String :=
  let hex := intHexStr (ratRound (q * 255))
  if hex.length = 1 then "0" ++ hex else hex

/-- Source `rgbaToHex` (both adapters): alpha digits appended only when
`a < 1`. -/
def rgbaToHex (r g b a : Rat) : String :=
  let alpha := if a < 1 then toHexChannel a else ""
  "#" ++ toHexChannel r ++ toHexChannel g ++ toHexChannel b ++ alpha

/-! ## Path sanitization (ObsidianSynchronizer.sanitizePath,
src/utils/retry.ts 476-478)

`name.replace(/[<>:"/\\|?*]/g, '-').replace(/\s+/g, ' ').trim()`.
`\s` and `String.prototype.trim` use the same ECMAScript character set
(WhiteSpace ∪ LineTerminator). -/

def isIllegalChar (c : Char) : Bool :=
  c = '<' || c = '>' || c = ':' || c = '"' || c = '/' ||
  c = '\\' || c = '|' || c = '?' || c = '*'

/-- ECMAScript `\s` (WhiteSpace ∪ LineTerminator). -/
def jsWs (c : Char) : Bool :=
  let n := c.toNat
  (0x9 ≤ n && n ≤ 0xD) || n = 0x20 || n = 0xA0 || n = 0x1680 ||
  (0x2000 ≤ n && n ≤ 0x200A) || n = 0x2028 || n = 0x2029 ||
  n = 0x202F || n = 0x205F || n = 0x3000 || n = 0xFEFF

/-- First replace: every illegal character becomes a hyphen. -/
def replaceIllegal (l : List Char) : List Char :=
  l.map (fun c => if isIllegalChar c then '-' else c)

/-- Second replace `/\s+/g → ' '`: each maximal whitespace run becomes one
space.  The flag records whether the previous character was whitespace. -/
def collapseWs : Bool → List Char → List Char
  | _, [] => []
  | prevWs, c :: cs =>
    if jsWs c then
      if prevWs then collapseWs true cs else ' ' :: collapseWs true cs
    else c :: collapseWs false cs

def trimLeftWs (l : List Char) : List Char := l.dropWhile jsWs

def trimRightWs (l : List Char) : List Char := (l.reverse.dropWhile jsWs).reverse

def sanitizeList (l : List Char) : List Char :=
  trimRightWs (trimLeftWs (collapseWs false (replaceIllegal l)))

/-- `ObsidianSynchronizer.sanitizePath`. -/
def sanitizePath (s : String) : String := String.mk (sanitizeList s.data)

/-! ## Exclusion filter (ObsidianSynchronizer.shouldExclude / globToRegex,
src/utils/retry.ts 517-539)

`globToRegex` escapes every regex metacharacter except `*` and `?` (the
escaped class is `[.+^${}()|[\]\\]`), rewrites `*` to `.*` and `?` to `.`,
and compiles `^pattern$` with the `i` flag.  So each pattern character
becomes one token: `*` (any run), `?` (any one character) or a literal.
In a JavaScript regex without the `s` flag, `.` matches any character
except a line terminator (LF, CR, U+2028, U+2029); `test` with the anchors
is whole-string matching; the `i` flag compares characters case-insensitively
(modelled by `Char.toLower` on both sides). -/

inductive GTok where
  | star
  | anyOne
  | lit (c : Char)
deriving DecidableEq, Repr

/-- Token list of the compiled regex for a glob pattern. -/
def globTokens (p : String) : List GTok :=
  p.data.map (fun c => if c = '*' then GTok.star else if c = '?' then GTok.anyOne else GTok.lit c)

/-- ECMAScript LineTerminator (the characters JS regex `.` does not match). -/
def isLineTerm (c : Char) : Bool :=
  c = '\n' || c = '\r' || c.toNat = 0x2028 || c.toNat = 0x2029

/-- Case-insensitive character comparison (regex `i` flag). -/
def caseEq (a b : Char) : Bool := a.toLower = b.toLower

/-- Backtracking loop for `.*`: try the continuation at every split point,
consuming only non-line-terminator characters. -/
def starLoop (k : List Char → Bool) : List Char → Bool
  | [] => k []
  | x :: xs => k (x :: xs) || (!isLineTerm x && starLoop k xs)

/-- Anchored matching of the compiled token list against a character list:
existence of a match of `^tokens$`, with the JS semantics of `.` (used for
both `?` and the expansion `.*` of `*`). -/
def matchTokens : List GTok → List Char → Bool
  | [], cs => cs.isEmpty
  | GTok.lit c :: ts, cs =>
    match cs with
    | [] => false
    | x :: xs => caseEq c x && matchTokens ts xs
  | GTok.anyOne :: ts, cs =>
    match cs with
    | [] => false
    | x :: xs => !isLineTerm x && matchTokens ts xs
  | GTok.star :: ts, cs => starLoop (matchTokens ts) cs

/-- `ObsidianSynchronizer.shouldExclude`: true when some pattern's compiled
regex matches the name; empty pattern list short-circuits to false. -/
def shouldExclude (patterns : List String) (name : String) : Bool :=
  if patterns.length = 0 then false
  else patterns.any (fun p => matchTokens (globTokens p) name.data)

/-- Parsing of the exclude-patterns setting
(ObsidianSynchronizer constructor, src/utils/retry.ts 141-144):
newline-split, per-line trim, blank lines dropped. -/
def parseExcludePatterns (s : String) : List String :=
  ((s.splitOn "\n").map String.trim).filter (fun p => p.length > 0)

/-! ## Retry with exponential backoff (retry, src/utils/retry.ts 26-57)

The repeated invocations of the retried thunk are modelled by a function
from the (1-based) attempt number to that invocation's outcome.  Delays are
JS numbers holding exact products of the options, modelled as `Rat`.
The source loop `for (attempt = 1; attempt <= maxAttempts; attempt++)`
throws when `attempt === maxAttempts` and otherwise sleeps and continues;
on the loop's domain `attempt ≤ maxAttempts` that test is equivalent to the
`attempt < maxAttempts` guard used here for termination. -/

structure RetryOptions where
  maxAttempts : Nat
  initialDelay : Rat
  maxDelay : Rat
  backoffMultiplier : Rat
deriving DecidableEq, Repr

/-- The delay slept after failed attempt `attempt`:
`Math.min(initialDelay * backoffMultiplier ** (attempt - 1), maxDelay)`. -/
def delayFor (o : RetryOptions) (attempt : Nat) : Rat :=
  min (o.initialDelay * o.backoffMultiplier ^ (attempt - 1)) o.maxDelay

structure RetryTrace (E A : Type) where
  result : Except E A
  calls : Nat
  delays : List Rat

/-- The retry loop, started at attempt number `attempt`; `calls` counts
invocations of the thunk and `delays` lists the sleeps performed. -/
def retryGo (fn : Nat → Except E A) (o : RetryOptions) (attempt : Nat) :
    RetryTrace E A :=
  match fn attempt with
  | Except.ok v => ⟨Except.ok v, 1, []⟩
  | Except.error e =>
    if _h : attempt < o.maxAttempts then
      let r := retryGo fn o (attempt + 1)
      ⟨r.result, r.calls + 1, delayFor o attempt :: r.delays⟩
    else ⟨Except.error e, 1, []⟩
  termination_by o.maxAttempts - attempt

/-- `retry(fn, options)`: attempts start at 1. -/
def retryModel (fn : Nat → Except E A) (o : RetryOptions) : RetryTrace E A :=
  retryGo fn o 1

/-! ## Zeplin API client error handling (ZeplinClient.handleError,
src/zeplin/client.ts 42-68)

An axios failure either carries a response (HTTP status plus optional body
message), or a request that got no response, or failed before sending.
`handleError` throws a plain `Error` whose message is selected by the HTTP
status; each client getter catches and rethrows unchanged, so an operation's
outcome is `Except String α` with the thrown message as the error. -/

inductive AxiosFailure where
  | response (status : Nat) (dataMessage : Option String) (errMessage : String)
  | request (errMessage : String)
  | setup (errMessage : String)
deriving DecidableEq, Repr

/-- `error.response.data?.message || error.message` (JS `||`: empty string
falls through). -/
def responseMessage (dataMessage : Option String) (errMessage : String) : String :=
  match dataMessage with
  | some s => if s = "" then errMessage else s
  | none => errMessage

/-- The message of the error thrown by `ZeplinClient.handleError`. -/
def handleError : AxiosFailure → String
  | AxiosFailure.response status dm em =>
    if status = 401 then "Invalid Zeplin API token. Please check your settings."
    else if status = 403 then "Access forbidden. Check your project permissions."
    else if status = 404 then "Resource not found."
    else if status = 429 then "Rate limit exceeded. Please try again later."
    else "Zeplin API error: " ++ responseMessage dm em
  | AxiosFailure.request _ => "Unable to reach Zeplin API. Check your internet connection."
  | AxiosFailure.setup em => "Request failed: " ++ em

/-- A client operation: the transport either delivers data or an axios
failure, which the response interceptor converts via `handleError`; the
getter's own try/catch rethrows unchanged. -/
def clientOp (transport : Except AxiosFailure α) : Except String α :=
  match transport with
  | Except.ok a => Except.ok a
  | Except.error e => Except.error (handleError e)

/-- `ZeplinClient.testConnection` (src/zeplin/client.ts 229-239): calls
`getProjects` and converts any failure into a `false` return value. -/
def testConnectionModel (transport : Except AxiosFailure (List ZeplinProject)) :
    Except String Bool :=
  match clientOp transport with
  | Except.ok _ => Except.ok true
  | Except.error _ => Except.ok false

/-! ## Assets manager (LogseqAssetsManager.downloadImage /
createImageMarkdown, src/logseq/assets.ts)

`downloadImage` fetches the image bytes; on any error it logs and returns
`null` (it never throws).  On success it builds a base64 data URI from the
response's content type (default `image/png`).  The filename argument is
used only for logging and asset naming and has no effect on the result. -/

structure FetchResponse where
  contentType : Option String
  base64Data : String
deriving DecidableEq, Repr

/-- `response.headers['content-type'] || 'image/png'`. -/
def mimeOf (ct : Option String) : String :=
  match ct with
  | some s => if s = "" then "image/png" else s
  | none => "image/png"

def downloadImage (fetched : Except String FetchResponse) : Option String :=
  match fetched with
  | Except.ok resp => some ("data:" ++ mimeOf resp.contentType ++ ";base64," ++ resp.base64Data)
  | Except.error _ => none

def createImageMarkdown (imagePath altText : String) : String :=
  if "data:".isPrefixOf imagePath then "![" ++ altText ++ "](" ++ imagePath ++ ")"
  else "![" ++ altText ++ "](../assets/" ++ imagePath ++ ")"

inductive ImageStorage where
  | inline
  | assets
deriving DecidableEq, Repr

/-- `ComponentSynchronizer.downloadAndFormatImage`
(src/sync/synchronizer.ts 416-446).  In `inline` mode the data URL is
embedded when the download succeeded and the result is `null` otherwise
(`downloadImage` converts fetch failures to `null`, so the surrounding
catch-with-direct-URL-fallback is not reached on a failed fetch); in
`assets` mode the direct URL is used. -/
def downloadAndFormatImage (storage : ImageStorage)
    (fetched : Except String FetchResponse) (itemName imageUrl : String) :
    Option String :=
  match storage with
  | ImageStorage.inline =>
    match downloadImage fetched with
    | some dataUrl => some (createImageMarkdown dataUrl itemName)
    | none => none
  | ImageStorage.assets => some ("![" ++ itemName ++ "](" ++ imageUrl ++ ")")

/-! ## Logseq store model

The Logseq graph is modelled flat: a list of pages and a list of blocks,
each block holding the uuid of its parent (a block uuid or a page uuid).
Fresh uuids come from a counter.  `BlockCreateInput`
(src/types/logseq.ts) is the nested input tree handed to
`createBlock`/`createBlockTree`. -/

structure Blk where
  uuid : String
  parent : String
  content : String
  props : Props
deriving DecidableEq, Repr

structure Page where
  name : String
  uuid : String
  props : Props
deriving DecidableEq, Repr

structure St where
  pages : List Page
  blks : List Blk
  counter : Nat
deriving DecidableEq, Repr

def St.empty : St := ⟨[], [], 0⟩

def freshUuid (st : St) : String := "u" ++ toString st.counter

mutual

/-- `BlockCreateInput` (src/types/logseq.ts): content, properties and a
children array; the array is encoded as the right-nested `BlockForest` so
that the recursion over it stays structural. -/
inductive BlockCreateInput where
  | mk (content : String) (props : Props) (children : BlockForest)

inductive BlockForest where
  | nil
  | cons (head : BlockCreateInput) (tail : BlockForest)

end

/-- View a list of input nodes as a `BlockForest`. -/
def BlockForest.ofList : List BlockCreateInput → BlockForest
  | [] => BlockForest.nil
  | c :: rest => BlockForest.cons c (BlockForest.ofList rest)

/-- A leaf input node (`{content, properties, no children}`), the only shape
the synchronizer constructs. -/
def BlockCreateInput.leaf (content : String) (props : Props) : BlockCreateInput :=
  BlockCreateInput.mk content props BlockForest.nil

/-! ### Blocks manager (LogseqBlocksManager, src/logseq/blocks.ts,
appearing in src/index.ts 322-494) -/

/-- `logseq.Editor.getBlock`. -/
def getBlock (st : St) (uuid : String) : Option Blk :=
  st.blks.find? (fun b => b.uuid = uuid)

/-- Whether `uuid` names an existing block or page (a valid insertion
parent for `logseq.Editor.insertBlock`). -/
def parentExists (st : St) (uuid : String) : Bool :=
  st.blks.any (fun b => b.uuid = uuid) || st.pages.any (fun p => p.uuid = uuid)

/-- One `logseq.Editor.insertBlock(parent, content, {sibling: false,
properties})` call: appends a fresh block under `parent`, or fails (the
manager then returns `null`) when the parent does not exist. -/
def insertBlock (st : St) (parent content : String) (props : Props) :
    St × Option String :=
  if parentExists st parent then
    let u := freshUuid st
    (⟨st.pages, st.blks ++ [⟨u, parent, content, props⟩], st.counter + 1⟩, some u)
  else (st, none)

mutual

/-- The state effect of `LogseqBlocksManager.createBlock` for one input
node: one `insertBlock` (skipping the subtree when insertion failed, as
`createBlock` then returns `null` without touching the children), then the
children beneath the new block. -/
def createNode (st : St) (parent : String) : BlockCreateInput → St
  | BlockCreateInput.mk content props children =>
    match insertBlock st parent content props with
    | (st1, some u) => createForest st1 u children
    | (st1, none) => st1

/-- Creation of a forest of input nodes under a common parent, in order. -/
def createForest (st : St) (parent : String) : BlockForest → St
  | BlockForest.nil => st
  | BlockForest.cons c rest => createForest (createNode st parent c) parent rest

end

/-- `LogseqBlocksManager.createBlock`: insert the block, then create the
children recursively beneath it; `null` when the insertion failed. -/
def createBlock (st : St) (parent content : String) (props : Props)
    (children : List BlockCreateInput) : St × Option String :=
  match insertBlock st parent content props with
  | (st1, some u) => (createForest st1 u (BlockForest.ofList children), some u)
  | (st1, none) => (st1, none)

/-- `LogseqBlocksManager.createBlockTree`: `createBlock` for each root of
the input forest under the same parent. -/
def createBlockTree (st : St) (parent : String)
    (tree : List BlockCreateInput) : St :=
  createForest st parent (BlockForest.ofList tree)

/-- `LogseqBlocksManager.updateBlock` (`logseq.Editor.updateBlock`):
replace the content of the block with the given uuid. -/
def updateBlock (st : St) (uuid content : String) : St :=
  ⟨st.pages,
   st.blks.map (fun b => if b.uuid = uuid then ⟨b.uuid, b.parent, content, b.props⟩ else b),
   st.counter⟩

/-- `logseq.Editor.upsertBlockProperty` on a block uuid. -/
def upsertBlockProperty (st : St) (uuid key : String) (v : PVal) : St :=
  ⟨st.pages,
   st.blks.map (fun b => if b.uuid = uuid then ⟨b.uuid, b.parent, b.content, setProp b.props key v⟩ else b),
   st.counter⟩

/-- `LogseqBlocksManager.findBlockByZeplinId`: datascript query for a block
whose `zeplin-id` property equals the given id (first hit). -/
def findBlockByZeplinId (st : St) (zeplinId : String) : Option String :=
  (st.blks.find? (fun b => lookupProp b.props "zeplin-id" = some (PVal.str zeplinId))).map (·.uuid)

/-- `LogseqBlocksManager.upsertBlock` (src/index.ts 416-454): find by
`zeplin-id`; if found update the content and (when properties were supplied
and the block is still retrievable) refresh `zeplin-updated` to now,
returning the existing uuid; otherwise create a new block with the supplied
properties merged with `zeplin-id` and `zeplin-synced`. -/
def upsertBlock (st : St) (now : Nat) (parentBlockUuid content zeplinId : String)
    (properties : Option Props) (children : List BlockCreateInput) :
    St × Option String :=
  match findBlockByZeplinId st zeplinId with
  | some existingUuid =>
    let st1 := updateBlock st existingUuid content
    let st2 :=
      match properties with
      | some _ =>
        match getBlock st1 existingUuid with
        | some _ => upsertBlockProperty st1 existingUuid "zeplin-updated" (PVal.num now)
        | none => st1
      | none => st1
    (st2, some existingUuid)
  | none =>
    let fullProperties :=
      setProp (setProp (properties.getD []) "zeplin-id" (PVal.str zeplinId))
        "zeplin-synced" (PVal.num now)
    createBlock st parentBlockUuid content fullProperties children

/-! ### Pages manager (LogseqPagesManager, src/index.ts 170-321) -/

def getPage (st : St) (name : String) : Option Page :=
  st.pages.find? (fun p => p.name = name)

/-- Page-property update loop of `ensurePage` for an existing page:
`upsertBlockProperty(page.uuid, key, value)` per supplied entry. -/
def updatePageProps (st : St) (uuid : String) (props : Props) : St :=
  ⟨st.pages.map (fun p =>
      if p.uuid = uuid then ⟨p.name, p.uuid, props.foldl (fun acc kv => setProp acc kv.1 kv.2) p.props⟩ else p),
   st.blks, st.counter⟩

/-- `LogseqPagesManager.ensurePage`: return the existing page's uuid
(after refreshing the supplied properties), or create the page
(`createFirstBlock: true` also creates an empty first block). -/
def ensurePage (st : St) (pageName : String) (properties : Option Props) :
    St × String :=
  match getPage st pageName with
  | some pg =>
    match properties with
    | some props => (updatePageProps st pg.uuid props, pg.uuid)
    | none => (st, pg.uuid)
  | none =>
    let u := freshUuid st
    let st1 : St := ⟨st.pages ++ [⟨pageName, u, properties.getD []⟩], st.blks, st.counter + 1⟩
    let ub := freshUuid st1
    (⟨st1.pages, st1.blks ++ [⟨ub, u, "", []⟩], st1.counter + 1⟩, u)

/-- `LogseqPagesManager.getPageFirstBlockUuid`: first block of the page,
created empty if the page exists but has none; `none` if the page is
missing. -/
def getPageFirstBlockUuid (st : St) (pageName : String) : St × Option String :=
  match getPage st pageName with
  | none => (st, none)
  | some pg =>
    match st.blks.find? (fun b => b.parent = pg.uuid) with
    | some b => (st, some b.uuid)
    | none =>
      let ub := freshUuid st
      (⟨st.pages, st.blks ++ [⟨ub, pg.uuid, "", []⟩], st.counter + 1⟩, some ub)

/-! ## Content renderers -/

/-- Logseq `ComponentSynchronizer.buildComponentContent`. -/
def buildComponentContent (c : ZEntity) : String :=
  let sectionPart :=
    match c.«section» with
    | some s => " (" ++ s.name ++ ")"
    | none => ""
  "**" ++ c.name ++ "**" ++ sectionPart

/-- Tag list rendering `tags.map(t => '#'+t).join(' ')`. -/
def renderTags (tags : List String) : String :=
  " ".intercalate (tags.map (fun t => "#" ++ t))

/-- Truthiness of the optional tag array: present and non-empty. -/
def tagsPresent : Option (List String) → Bool
  | some ts => ts.length > 0
  | none => false

/-- Obsidian `ObsidianSynchronizer.buildScreenMarkdown`
(src/utils/retry.ts 408-439), with the render time passed in for
`new Date().toISOString()`. -/
def buildScreenMarkdown (p : ZeplinProject) (screen : ZEntity) (ts : String) : String :=
  let sectionPart :=
    match screen.«section» with
    | some sec => "**Section:** " ++ sec.name ++ "\n"
    | none => ""
  let tagsPart :=
    match screen.tags with
    | some tl => if tl.length > 0 then "**Tags:** " ++ renderTags tl ++ "\n" else ""
    | none => ""
  let descPart :=
    match screen.description with
    | some d => if d = "" then "" else "## Description\n\n" ++ d ++ "\n\n"
    | none => ""
  let imagePart :=
    match extractImageUrlObsidian screen with
    | some imageUrl => "## Preview\n\n" ++ "![" ++ screen.name ++ "](" ++ imageUrl ++ ")\n\n"
    | none => ""
  "**Type:** Screen\n" ++ sectionPart ++ tagsPart ++
    "**Zeplin URL:** [View in Zeplin](https://app.zeplin.io/project/" ++ p.id ++
      "/screen/" ++ screen.id ++ ")\n\n" ++
    descPart ++ imagePart ++
    "---\n*Synced from Zeplin on " ++ ts ++ "*\n"

/-- Obsidian `ObsidianSynchronizer.buildComponentMarkdown`
(src/utils/retry.ts 375-403). -/
def buildComponentMarkdown (p : ZeplinProject) (component : ZEntity) (ts : String) : String :=
  let sectionPart :=
    match component.«section» with
    | some sec => "**Section:** " ++ sec.name ++ "\n"
    | none => ""
  let descPart :=
    match component.description with
    | some d => if d = "" then "" else "## Description\n\n" ++ d ++ "\n\n"
    | none => ""
  let imagePart :=
    match extractImageUrlObsidian component with
    | some imageUrl => "## Preview\n\n" ++ "![" ++ component.name ++ "](" ++ imageUrl ++ ")\n\n"
    | none => ""
  "**Type:** Component\n" ++ sectionPart ++
    "**Zeplin URL:** [View in Zeplin](https://app.zeplin.io/project/" ++ p.id ++
      "/components?coid=" ++ component.id ++ ")\n\n" ++
    descPart ++ imagePart ++
    "---\n*Synced from Zeplin on " ++ ts ++ "*\n"

/-! ## Sync orchestrator (ComponentSynchronizer, src/sync/synchronizer.ts)

The Zeplin client and the image fetch are passed in as an operations record;
each operation's outcome is an `Except String` value (success data or the
message of the thrown error).  `now` stands for `Date.now()`. -/

structure PluginConfig where
  defaultNamespace : String
  imageStorage : ImageStorage
deriving DecidableEq, Repr

structure ClientOps where
  getProject : String → Except String ZeplinProject
  getComponents : String → Except String (List ZEntity)
  getComponent : String → String → Except String ZEntity
  getScreens : String → Except String (List ZEntity)
  getScreen : String → String → Except String ZEntity
  getColors : String → Except String (List ZeplinColor)
  getTextStyles : String → Except String (List ZeplinTextStyle)
  fetchImage : String → Except String FetchResponse

/-- `ComponentSynchronizer.createProjectStructure`: project page with
metadata properties, plus the three organisational sub-pages. -/
def createProjectStructureM (cfg : PluginConfig) (now : Nat)
    (p : ZeplinProject) (st : St) : St :=
  let projectPageName := cfg.defaultNamespace ++ "/" ++ p.name
  let (st1, _) := ensurePage st projectPageName
    (some [("zeplin-id", PVal.str p.id), ("zeplin-type", PVal.str "project"),
           ("zeplin-platform", PVal.str p.platform), ("zeplin-synced", PVal.num now)])
  let (st2, _) := ensurePage st1 (projectPageName ++ "/Components") none
  let (st3, _) := ensurePage st2 (projectPageName ++ "/Screens") none
  let (st4, _) := ensurePage st3 (projectPageName ++ "/Design Tokens") none
  st4

/-- `ComponentSynchronizer.syncComponent` (src/sync/synchronizer.ts
114-167): fetch the full component, assemble description/image children,
and upsert keyed on the component's id. -/
def syncComponentM (ops : ClientOps) (cfg : PluginConfig) (now : Nat)
    (p : ZeplinProject) (c : ZEntity) (parentBlockUuid : String) (st : St) :
    Except String St := do
  let full ← ops.getComponent p.id c.id
  let content := buildComponentContent full
  let properties : Props :=
    [("zeplin-id", PVal.str full.id), ("zeplin-type", PVal.str "component"),
     ("zeplin-updated", PVal.num full.updated),
     ("zeplin-url", PVal.str ("https://app.zeplin.io/project/" ++ p.id ++
        "/components?coid=" ++ full.id))]
  let children0 : List BlockCreateInput :=
    if strTruthy full.description then
      [BlockCreateInput.leaf (full.description.getD "") []]
    else []
  let children : List BlockCreateInput :=
    match extractImageUrl full with
    | some imageUrl =>
      match downloadAndFormatImage cfg.imageStorage (ops.fetchImage imageUrl)
          full.name imageUrl with
      | some imageContent => children0 ++ [BlockCreateInput.leaf imageContent []]
      | none => children0
    | none => children0
  pure (upsertBlock st now parentBlockUuid content c.id (some properties) children).1

/-- `ComponentSynchronizer.syncComponents` (src/sync/synchronizer.ts
93-109). -/
def syncComponentsM (ops : ClientOps) (cfg : PluginConfig) (now : Nat)
    (p : ZeplinProject) (st : St) : Except String St := do
  let components ← ops.getComponents p.id
  let componentsPageName := cfg.defaultNamespace ++ "/" ++ p.name ++ "/Components"
  match getPageFirstBlockUuid st componentsPageName with
  | (_, none) => Except.error "Failed to get components page first block"
  | (st1, some pageUuid) =>
    components.foldlM (fun s c => syncComponentM ops cfg now p c pageUuid s) st1

/-- The child contents assembled for one screen page
(`syncScreenAsPage`, src/sync/synchronizer.ts 234-284), in source order:
deep link, then description, then tags, then section, then the image
content when one was produced. -/
def screenPageChildrenContents (cfg : PluginConfig)
    (fetch : String → Except String FetchResponse) (p : ZeplinProject)
    (s : ZEntity) : List String :=
  ["**Zeplin URL:** [View in Zeplin](https://app.zeplin.io/project/" ++ p.id ++
     "/screen/" ++ s.id ++ ")"]
  ++ (match s.description with
      | some d => if d = "" then [] else ["**Description:** " ++ d]
      | none => [])
  ++ (match s.tags with
      | some tl => if tl.length > 0 then ["**Tags:** " ++ renderTags tl] else []
      | none => [])
  ++ (match s.«section» with
      | some sec => ["**Section:** " ++ sec.name]
      | none => [])
  ++ (match extractImageUrl s with
      | some imageUrl =>
        match downloadAndFormatImage cfg.imageStorage (fetch imageUrl) s.name imageUrl with
        | some imageContent => [imageContent]
        | none => []
      | none => [])

/-- `ComponentSynchronizer.syncScreenAsPage` (src/sync/synchronizer.ts
197-287): create/refresh the screen's own page, add a link block to the
index page (a plain `createBlock`, tagged with the screen's zeplin-id),
then append the child contents to the screen page with `createBlockTree`. -/
def syncScreenAsPageM (ops : ClientOps) (cfg : PluginConfig)
    (p : ZeplinProject) (screen : ZEntity) (indexPageUuid : String) (st : St) :
    Except String St := do
  let full ← ops.getScreen p.id screen.id
  let screenPageName := cfg.defaultNamespace ++ "/" ++ p.name ++ "/Screens/" ++ full.name
  let (st1, _) := ensurePage st screenPageName
    (some [("zeplin-id", PVal.str full.id), ("zeplin-type", PVal.str "screen"),
           ("zeplin-updated", PVal.num full.updated),
           ("zeplin-url", PVal.str ("https://app.zeplin.io/project/" ++ p.id ++
              "/screen/" ++ full.id))])
  match getPageFirstBlockUuid st1 screenPageName with
  | (_, none) =>
    Except.error ("Failed to get first block for screen page: " ++ screenPageName)
  | (st2, some screenPageBlockUuid) =>
    let (st3, _) := createBlock st2 indexPageUuid ("[[" ++ screenPageName ++ "]]")
      [("zeplin-id", PVal.str full.id), ("zeplin-type", PVal.str "screen")] []
    let children := (screenPageChildrenContents cfg ops.fetchImage p full).map
      (fun content => BlockCreateInput.leaf content [])
    pure (createBlockTree st3 screenPageBlockUuid children)

/-- `ComponentSynchronizer.syncScreens` (src/sync/synchronizer.ts
172-192). -/
def syncScreensM (ops : ClientOps) (cfg : PluginConfig)
    (p : ZeplinProject) (st : St) : Except String St := do
  let screens ← ops.getScreens p.id
  let screensIndexPageName := cfg.defaultNamespace ++ "/" ++ p.name ++ "/Screens"
  let (st1, _) := ensurePage st screensIndexPageName none
  match getPageFirstBlockUuid st1 screensIndexPageName with
  | (_, none) => Except.error "Failed to get screens index page first block"
  | (st2, some indexPageUuid) =>
    screens.foldlM (fun s scr => syncScreenAsPageM ops cfg p scr indexPageUuid s) st2

/-- `color.name || 'Unnamed'`. -/
def colorDisplayName : Option String → String
  | some s => if s = "" then "Unnamed" else s
  | none => "Unnamed"

/-- `ComponentSynchronizer.syncDesignTokens` (src/sync/synchronizer.ts
292-334): colors and text styles are added with plain `createBlock`
(tagged with their zeplin-id) on every run. -/
def syncDesignTokensM (ops : ClientOps) (cfg : PluginConfig)
    (p : ZeplinProject) (st : St) : Except String St := do
  let tokensPageName := cfg.defaultNamespace ++ "/" ++ p.name ++ "/Design Tokens"
  match getPageFirstBlockUuid st tokensPageName with
  | (_, none) => Except.error "Failed to get design tokens page first block"
  | (st1, some pageUuid) => do
    let st2 ←
      if p.number_of_colors > 0 then do
        let colors ← ops.getColors p.id
        let sth := (createBlock st1 pageUuid
          ("## Colors (" ++ toString colors.length ++ ")") [] []).1
        pure (colors.foldl (fun s color =>
          (createBlock s pageUuid
            (colorDisplayName color.name ++ ": `" ++
              rgbaToHex color.r color.g color.b color.a ++ "`")
            [("zeplin-id", PVal.str color.id), ("zeplin-type", PVal.str "color")] []).1)
          sth)
      else pure st1
    if p.number_of_text_styles > 0 then do
      let textStyles ← ops.getTextStyles p.id
      let sth := (createBlock st2 pageUuid
        ("## Text Styles (" ++ toString textStyles.length ++ ")") [] []).1
      pure (textStyles.foldl (fun s style =>
        (createBlock s pageUuid
          (style.name ++ ": " ++ style.font_family ++ " " ++
            toString style.font_size ++ "px / " ++ toString style.font_weight)
          [("zeplin-id", PVal.str style.id), ("zeplin-type", PVal.str "text-style")] []).1)
        sth)
    else pure st2

/-- `ComponentSynchronizer.syncProject` (src/sync/synchronizer.ts 33-63).
The surrounding try/catch logs and rethrows the same error, so the
function's outcome is the body's outcome unchanged. -/
def syncProjectM (ops : ClientOps) (cfg : PluginConfig) (now : Nat)
    (projectId : String) (st : St) : Except String St := do
  let p ← ops.getProject projectId
  let st1 := createProjectStructureM cfg now p st
  let st2 ← if p.number_of_components > 0 then syncComponentsM ops cfg now p st1 else pure st1
  let st3 ← if p.number_of_screens > 0 then syncScreensM ops cfg p st2 else pure st2
  syncDesignTokensM ops cfg p st3

/-- Number of blocks in the store carrying a given `zeplin-id` property
(the local units keyed by that remote ID). -/
def countBlocksWithZeplinId (st : St) (zeplinId : String) : Nat :=
  st.blks.countP (fun b => lookupProp b.props "zeplin-id" = some (PVal.str zeplinId))

/-- Contents of the child blocks of the first block carrying the given
`zeplin-id`. -/
def childContentsOfZeplinId (st : St) (zeplinId : String) : List String :=
  match findBlockByZeplinId st zeplinId with
  | some u => (st.blks.filter (fun b => b.parent = u)).map (·.content)
  | none => []

/-! ## Claim-side definitions

The following definitions are written from the specification's words (not
from the source) and exist to be compared against the source-side
definitions above; each is named with a `Claim` or `Amended` suffix. -/

/-- Backtracking loop for claim C2's `*`: any character may be consumed. -/
def claimStarLoop (k : List Char → Bool) : List Char → Bool
  | [] => k []
  | x :: xs => k (x :: xs) || claimStarLoop k xs

/-- Glob matching as claim C2 words it: `?` matches any single character and
`*` matches any run of characters (no line-terminator restriction). -/
def claimGlobMatch : List GTok → List Char → Bool
  | [], cs => cs.isEmpty
  | GTok.lit c :: ts, cs =>
    match cs with
    | [] => false
    | x :: xs => caseEq c x && claimGlobMatch ts xs
  | GTok.anyOne :: ts, cs =>
    match cs with
    | [] => false
    | _ :: xs => claimGlobMatch ts xs
  | GTok.star :: ts, cs => claimStarLoop (claimGlobMatch ts) cs

/-- Declarative matching relation for the compiled glob, with the semantics
the code actually implements (amended claim C2): a literal matches one
character case-insensitively, `?` matches one non-line-terminator character,
`*` matches a run of non-line-terminator characters. -/
inductive GlobMatches : List GTok → List Char → Prop where
  | nil : GlobMatches [] []
  | lit {c x : Char} {ts : List GTok} {xs : List Char} :
      caseEq c x → GlobMatches ts xs → GlobMatches (GTok.lit c :: ts) (x :: xs)
  | one {x : Char} {ts : List GTok} {xs : List Char} :
      isLineTerm x = false → GlobMatches ts xs →
      GlobMatches (GTok.anyOne :: ts) (x :: xs)
  | star {ts : List GTok} {pre post : List Char} :
      (∀ c ∈ pre, isLineTerm c = false) → GlobMatches ts post →
      GlobMatches (GTok.star :: ts) (pre ++ post)

/-- Per-asset candidate order (a)-(d) of claim C3: large thumbnail,
original URL, medium thumbnail, generic URL. -/
def assetCandidatesClaim (a : ZAsset) : Option String :=
  ((a.thumbnails.bind Thumbnails.large) <|> a.original_url)
    <|> ((a.thumbnails.bind Thumbnails.medium) <|> a.url)

/-- `resolveImageUrl` as claim C3 words it: primary image with sub-priority
(a)-(d), then the latest-version image with the same sub-priority, then the
first entry of the images array with the same sub-priority. -/
def resolveImageUrlClaim (item : ZEntity) : Option String :=
  (item.image.bind assetCandidatesClaim)
    <|> ((item.latest_version.bind ZLatestVersion.image).bind assetCandidatesClaim)
    <|> ((firstImage item.images).bind assetCandidatesClaim)

/-- Amended form of claim C3, matching the source: for the latest-version
image and the first images-array entry the medium thumbnail is skipped
(sub-priority (a), (b), (d)). -/
def resolveImageUrlAmended (item : ZEntity) : Option String :=
  (item.image.bind assetCandidatesClaim)
    <|> ((item.latest_version.bind ZLatestVersion.image).bind secondaryCandidates)
    <|> ((firstImage item.images).bind secondaryCandidates)

/-- Claim C5's channel conversion: a 0-255 integer obtained by rounding
`c * 255`. -/
def round255 (c : Rat) : Int := ⌊c * 255 + 1/2⌋

/-- Claim C5's rendering of a 0-255 value as exactly two lowercase
zero-padded hex digits. -/
def hexByte (n : Nat) : String :=
  String.mk [hexDigitChar (n / 16 % 16), hexDigitChar (n % 16)]

/-- The fields of a rendered screen in the order fixed by claim C6:
type label with section, tags, deep link, description (when non-empty),
image (with the entity name as alt text), trailing sync-provenance line. -/
def screenClaimFields (p : ZeplinProject) (screen : ZEntity) (ts : String) :
    List String :=
  ["**Type:** Screen\n" ++
     (match screen.«section» with
      | some sec => "**Section:** " ++ sec.name ++ "\n"
      | none => "")]
  ++ (match screen.tags with
      | some tl => if tl.length > 0 then ["**Tags:** " ++ renderTags tl ++ "\n"] else []
      | none => [])
  ++ ["**Zeplin URL:** [View in Zeplin](https://app.zeplin.io/project/" ++ p.id ++
        "/screen/" ++ screen.id ++ ")\n\n"]
  ++ (match screen.description with
      | some d => if d = "" then [] else ["## Description\n\n" ++ d ++ "\n\n"]
      | none => [])
  ++ (match extractImageUrlObsidian screen with
      | some imageUrl => ["## Preview\n\n" ++ "![" ++ screen.name ++ "](" ++ imageUrl ++ ")\n\n"]
      | none => [])
  ++ ["---\n*Synced from Zeplin on " ++ ts ++ "*\n"]

/-- The fields of a rendered component in the order fixed by claim C6
(no tags for components). -/
def componentClaimFields (p : ZeplinProject) (component : ZEntity) (ts : String) :
    List String :=
  ["**Type:** Component\n" ++
     (match component.«section» with
      | some sec => "**Section:** " ++ sec.name ++ "\n"
      | none => "")]
  ++ ["**Zeplin URL:** [View in Zeplin](https://app.zeplin.io/project/" ++ p.id ++
        "/components?coid=" ++ component.id ++ ")\n\n"]
  ++ (match component.description with
      | some d => if d = "" then [] else ["## Description\n\n" ++ d ++ "\n\n"]
      | none => [])
  ++ (match extractImageUrlObsidian component with
      | some imageUrl => ["## Preview\n\n" ++ "![" ++ component.name ++ "](" ++ imageUrl ++ ")\n\n"]
      | none => [])
  ++ ["---\n*Synced from Zeplin on " ++ ts ++ "*\n"]

/-- The failure categories named by claim C7. -/
inductive ErrCategory where
  | unauthorized
  | forbidden
  | notFound
  | rateLimited
  | transportUnreachable
  | other
deriving DecidableEq, Repr

/-- Claim C7's status-derived category: 401, 403, 404, 429, no response,
otherwise `other`. -/
def errorCategory : AxiosFailure → ErrCategory
  | AxiosFailure.response status _ _ =>
    if status = 401 then ErrCategory.unauthorized
    else if status = 403 then ErrCategory.forbidden
    else if status = 404 then ErrCategory.notFound
    else if status = 429 then ErrCategory.rateLimited
    else ErrCategory.other
  | AxiosFailure.request _ => ErrCategory.transportUnreachable
  | AxiosFailure.setup _ => ErrCategory.other

/-- The human-readable message the client attaches to each category. -/
def categoryMessage : ErrCategory → AxiosFailure → String
  | ErrCategory.unauthorized, _ => "Invalid Zeplin API token. Please check your settings."
  | ErrCategory.forbidden, _ => "Access forbidden. Check your project permissions."
  | ErrCategory.notFound, _ => "Resource not found."
  | ErrCategory.rateLimited, _ => "Rate limit exceeded. Please try again later."
  | ErrCategory.transportUnreachable, _ => "Unable to reach Zeplin API. Check your internet connection."
  | ErrCategory.other, AxiosFailure.response _ dm em => "Zeplin API error: " ++ responseMessage dm em
  | ErrCategory.other, AxiosFailure.request em => "Request failed: " ++ em
  | ErrCategory.other, AxiosFailure.setup em => "Request failed: " ++ em

/-- The frame property claim C9 asserts of `upsertBlock` when a block with
the given remote ID already exists (`u` its uuid): the resulting state
changes only that block's content and its `zeplin-updated` property, no
block is added or removed, pages and the uuid counter are untouched, the
existing uuid is returned, and `zeplin-synced` lookups are unaffected by
the property refresh. -/
def UpsertExistingFrame (st : St) (now : Nat) (parent content zid : String)
    (props : Props) (children : List BlockCreateInput) (u : String) : Prop :=
  upsertBlock st now parent content zid (some props) children =
    (⟨st.pages,
      st.blks.map (fun b => if b.uuid = u then
        ⟨b.uuid, b.parent, content, setProp b.props "zeplin-updated" (PVal.num now)⟩
      else b),
      st.counter⟩, some u)
  ∧ (upsertBlock st now parent content zid (some props) children).1.blks.length
      = st.blks.length
  ∧ (upsertBlock st now parent content zid (some props) children).1.pages = st.pages
  ∧ (upsertBlock st now parent content zid (some props) children).1.counter = st.counter
  ∧ ∀ b ∈ st.blks,
      lookupProp (setProp b.props "zeplin-updated" (PVal.num now)) "zeplin-synced"
        = lookupProp b.props "zeplin-synced"

/-- A store holding one block tagged `zeplin-id = c1` (used to witness the
upsert frame theorem). -/
def c9Store : St :=
  ⟨[], [⟨"b1", "root", "old",
    [("zeplin-id", PVal.str "c1"), ("zeplin-synced", PVal.num 5)]⟩], 7⟩

/-- The contract claim C10 asserts of `retry`: at most `maxAttempts`
invocations; the value of the first successful invocation is returned (with
exactly that many calls made); when every allowed invocation fails, the
error of the `maxAttempts`-th invocation is raised after exactly
`maxAttempts` calls; the delay slept before attempt `k+1` is
`min(initialDelay * backoffMultiplier^(k-1), maxDelay)`; and no delay
exceeds `maxDelay`. -/
def RetryContract {E A : Type} (fn : Nat → Except E A) (o : RetryOptions) : Prop :=
  (retryModel fn o).calls ≤ o.maxAttempts
  ∧ (∀ k v, 1 ≤ k → k ≤ o.maxAttempts →
      (∀ i, 1 ≤ i → i < k → ∃ e, fn i = Except.error e) →
      fn k = Except.ok v →
      (retryModel fn o).result = Except.ok v ∧ (retryModel fn o).calls = k)
  ∧ ((∀ i, 1 ≤ i → i ≤ o.maxAttempts → ∃ e, fn i = Except.error e) →
      (retryModel fn o).calls = o.maxAttempts ∧
      ∀ e, fn o.maxAttempts = Except.error e → (retryModel fn o).result = Except.error e)
  ∧ (retryModel fn o).delays =
      (List.range ((retryModel fn o).calls - 1)).map (fun j => delayFor o (j + 1))
  ∧ (∀ x ∈ (retryModel fn o).delays, x ≤ o.maxDelay)

/-- A thunk whose first invocation fails and whose second succeeds (used to
witness the retry theorem). -/
def retryWitnessFn : Nat → Except String Nat :=
  fun n => if n = 1 then Except.error "boom" else Except.ok 42

def retryWitnessOpts : RetryOptions := ⟨3, 1000, 10000, 2⟩

/-! ### Concrete inputs and auxiliary predicates used by the claim theorems -/

/-- An entity with no primary image whose latest-version image carries only
a medium thumbnail: claim C3's priority (e)-(c) would return it, the code
returns null. -/
def c3Item : ZEntity :=
  ⟨"i3", "X", none, none, none,
   some ⟨some ⟨none, none, some ⟨none, some "MED", none⟩⟩⟩, 0, 0, none, none⟩

def c6cfg : PluginConfig := ⟨"Zeplin", ImageStorage.assets⟩

def c6proj : ZeplinProject := ⟨"p6", "P", "web", "active", 1, 0, 0, 0⟩

/-- A screen with description, tags and section, exercising the Logseq
screen-page child rendering of `syncScreenAsPage`. -/
def c6screen : ZEntity :=
  ⟨"s6", "Login", some "A login screen", none, none, none, 1, 2,
   some ⟨"sec1", "Auth"⟩, some ["mobile"]⟩

/-- A client whose project fetch fails with the categorized 401 message. -/
def c7ops : ClientOps :=
  ⟨fun _ => Except.error (handleError (AxiosFailure.response 401 none "m")),
   fun _ => Except.ok [], fun _ _ => Except.error "nc",
   fun _ => Except.ok [], fun _ _ => Except.error "ns",
   fun _ => Except.ok [], fun _ => Except.ok [],
   fun _ => Except.error "nf"⟩

def c7cfg : PluginConfig := ⟨"Zeplin", ImageStorage.assets⟩

def c1screen : ZEntity := ⟨"s1", "Login", none, none, none, none, 10, 20, none, none⟩

def c1proj : ZeplinProject := ⟨"p1", "Proj", "web", "active", 1, 0, 0, 0⟩

/-- A client serving one project with a single screen `s1` and nothing
else. -/
def c1ops : ClientOps :=
  ⟨fun _ => Except.ok c1proj, fun _ => Except.ok [], fun _ _ => Except.error "nc",
   fun _ => Except.ok [c1screen], fun _ _ => Except.ok c1screen,
   fun _ => Except.ok [], fun _ => Except.ok [], fun _ => Except.error "nf"⟩

def c1cfg : PluginConfig := ⟨"Zeplin", ImageStorage.assets⟩

/-- A component whose only image candidate is a large thumbnail URL. -/
def c4comp : ZEntity :=
  ⟨"c2", "Btn", none,
   some ⟨none, none, some ⟨none, none, some "https://img.example/x.png"⟩⟩,
   none, none, 1, 2, none, none⟩

def c4proj : ZeplinProject := ⟨"p2", "Proj2", "web", "active", 0, 1, 0, 0⟩

/-- A client serving one project with a single component whose image fetch
always fails with a network error. -/
def c4ops : ClientOps :=
  ⟨fun _ => Except.ok c4proj, fun _ => Except.ok [c4comp], fun _ _ => Except.ok c4comp,
   fun _ => Except.ok [], fun _ _ => Except.error "ns",
   fun _ => Except.ok [], fun _ => Except.ok [],
   fun _ => Except.error "Network Error"⟩

def c4cfg : PluginConfig := ⟨"Zeplin", ImageStorage.inline⟩

def noWsPair (a b : Char) : Prop := (jsWs a && jsWs b) = false

/-! # Theorems -/

/-! ## Claim C5: rgbaToHex -/

lemma hexDigitChar_zero : hexDigitChar 0 = '0' := by decide

lemma natHexDigits_small {n : Nat} (h : n < 16) :
    natHexDigits n = [hexDigitChar n] := by
  rw [natHexDigits]
  simp [h]

lemma natHexDigits_mid {n : Nat} (h1 : 16 ≤ n) (h2 : n ≤ 255) :
    natHexDigits n = [hexDigitChar (n / 16), hexDigitChar (n % 16)] := by
  rw [natHexDigits]
  have hn : ¬ n < 16 := by omega
  simp only [hn, dite_false]
  rw [natHexDigits_small (by omega : n / 16 < 16)]
  rfl

/-- For a channel in `[0,1]` the source's `toHex` renders the rounded value
as exactly two lowercase zero-padded hex digits. -/
lemma toHexChannel_eq {q : Rat} (h0 : 0 ≤ q) (h1 : q ≤ 1) :
    toHexChannel q = hexByte (round255 q).toNat := by
  have hEq : ratRound (q * 255) = round255 q := rfl
  have hlow : 0 ≤ round255 q := by
    rw [round255]
    exact Int.floor_nonneg.mpr (by nlinarith)
  have hhi : round255 q < 256 := by
    rw [round255, Int.floor_lt]
    push_cast
    nlinarith
  set m : Int := round255 q with hm
  have hmn : m.toNat ≤ 255 := by omega
  rw [toHexChannel, hEq]
  have hneg : ¬ m < 0 := by omega
  rw [intHexStr, if_neg hneg]
  by_cases hsm : m.toNat < 16
  · rw [natHexDigits_small hsm]
    have hlen : (String.mk [hexDigitChar m.toNat]).length = 1 := rfl
    rw [if_pos hlen, hexByte]
    have hz : m.toNat / 16 % 16 = 0 := by omega
    have h2 : m.toNat % 16 = m.toNat := by omega
    rw [hz, h2, hexDigitChar_zero]
    rfl
  · rw [natHexDigits_mid (by omega) hmn]
    have hlen : (String.mk [hexDigitChar (m.toNat / 16),
        hexDigitChar (m.toNat % 16)]).length = 2 := rfl
    rw [if_neg (by rw [hlen]; omega), hexByte]
    have : m.toNat / 16 % 16 = m.toNat / 16 := by omega
    rw [this]

lemma hexByte_len (n : Nat) : (hexByte n).length = 2 := rfl

/-- Claim C5 (confirmed): for channels in `[0,1]`, `rgbaToHex` renders each
channel as the two lowercase zero-padded hex digits of the 0-255 integer
obtained by rounding `channel * 255`, appending the alpha digits exactly
when `a < 1` (so opaque colors have `#` plus 6 hex digits and translucent
ones `#` plus 8); and the four fixture values are as stated. -/
theorem rgbaToHex_spec :
    (∀ r g b a : Rat, 0 ≤ r → r ≤ 1 → 0 ≤ g → g ≤ 1 → 0 ≤ b → b ≤ 1 →
      0 ≤ a → a ≤ 1 →
      rgbaToHex r g b a =
        "#" ++ hexByte (round255 r).toNat ++ hexByte (round255 g).toNat ++
          hexByte (round255 b).toNat ++
          (if a < 1 then hexByte (round255 a).toNat else "") ∧
      (rgbaToHex r g b a).length = (if a < 1 then 9 else 7))
    ∧ rgbaToHex 0 0 0 1 = "#000000"
    ∧ rgbaToHex 1 1 1 1 = "#ffffff"
    ∧ rgbaToHex 1 0 0 (1/2) = "#ff000080"
    ∧ rgbaToHex 0 1 0 1 = "#00ff00" := by
  have h0 : round255 0 = 0 := by rw [round255]; norm_num
  have h1 : round255 1 = 255 := by rw [round255]; norm_num
  have hh : round255 (1/2) = 128 := by rw [round255]; norm_num
  refine ⟨?_, ?_, ?_, ?_, ?_⟩
  · intro r g b a hr0 hr1 hg0 hg1 hb0 hb1 ha0 ha1
    have hstruct : rgbaToHex r g b a =
        "#" ++ hexByte (round255 r).toNat ++ hexByte (round255 g).toNat ++
          hexByte (round255 b).toNat ++
          (if a < 1 then hexByte (round255 a).toNat else "") := by
      rw [rgbaToHex, toHexChannel_eq hr0 hr1, toHexChannel_eq hg0 hg1,
        toHexChannel_eq hb0 hb1]
      by_cases hlt : a < 1
      · rw [if_pos hlt, if_pos hlt, toHexChannel_eq ha0 ha1]
      · rw [if_neg hlt, if_neg hlt]
    refine ⟨hstruct, ?_⟩
    rw [hstruct]
    by_cases hlt : a < 1
    · rw [if_pos hlt, if_pos hlt]
      simp only [String.length_append, hexByte_len]
      rfl
    · rw [if_neg hlt, if_neg hlt]
      simp only [String.length_append, hexByte_len]
      rfl
  · rw [rgbaToHex, if_neg (by norm_num : ¬ (1:Rat) < 1),
      toHexChannel_eq (by norm_num) (by norm_num), h0]
    decide
  · rw [rgbaToHex, if_neg (by norm_num : ¬ (1:Rat) < 1),
      toHexChannel_eq (by norm_num) (by norm_num), h1]
    decide
  · rw [rgbaToHex, if_pos (by norm_num : (1:Rat)/2 < 1),
      toHexChannel_eq (by norm_num) (by norm_num),
      toHexChannel_eq (by norm_num) (by norm_num),
      toHexChannel_eq (by norm_num) (by norm_num), h1, h0, hh]
    decide
  · rw [rgbaToHex, if_neg (by norm_num : ¬ (1:Rat) < 1),
      toHexChannel_eq (by norm_num) (by norm_num),
      toHexChannel_eq (by norm_num) (by norm_num), h0, h1]
    decide

/-- Witness for claim C5's theorem at the translucent fixture
`(1, 0, 0, 1/2)`, discharging the channel-range hypotheses there. -/
theorem rgbaToHex_spec_witness :
    ((0 ≤ (1:Rat) ∧ (1:Rat) ≤ 1) ∧ (0 ≤ (0:Rat) ∧ (0:Rat) ≤ 1) ∧
      (0 ≤ (1:Rat)/2 ∧ (1:Rat)/2 ≤ 1)) ∧
    rgbaToHex 1 0 0 (1/2) =
      "#" ++ hexByte (round255 1).toNat ++ hexByte (round255 0).toNat ++
        hexByte (round255 0).toNat ++
        (if (1:Rat)/2 < 1 then hexByte (round255 (1/2)).toNat else "") ∧
    (rgbaToHex 1 0 0 (1/2)).length = (if (1:Rat)/2 < 1 then 9 else 7) := by
  refine ⟨⟨⟨by norm_num, by norm_num⟩, ⟨by norm_num, by norm_num⟩,
    ⟨by norm_num, by norm_num⟩⟩, ?_, ?_⟩
  · exact (rgbaToHex_spec.1 1 0 0 (1/2) (by norm_num) (by norm_num) (by norm_num)
      (by norm_num) (by norm_num) (by norm_num) (by norm_num) (by norm_num)).1
  · exact (rgbaToHex_spec.1 1 0 0 (1/2) (by norm_num) (by norm_num) (by norm_num)
      (by norm_num) (by norm_num) (by norm_num) (by norm_num) (by norm_num)).2

/-! ## Claim C3: image resolution priority -/

/-- Counterexample to claim C3 as stated: on `c3Item` the code's
`extractImageUrl` returns `none` although the claim's resolver (latest
version consulted with full sub-priority (a)-(d), including the medium
thumbnail) returns the medium thumbnail URL. -/
theorem extractImageUrl_counterexample :
    extractImageUrl c3Item = none ∧ resolveImageUrlClaim c3Item = some "MED" := by
  constructor <;> rfl

/-- Claim C3 as amended: the Logseq `extractImageUrl` follows the claimed
priority except that the latest-version image and the first images-array
entry are consulted with sub-priority (a) large, (b) original, (d) generic
URL only (no medium thumbnail), and the Obsidian variant stops after the
primary-image candidates; null is returned exactly when no consulted field
is present; the claim's three concrete scenarios hold as stated. -/
theorem extractImageUrl_amended :
    (∀ item, extractImageUrl item = resolveImageUrlAmended item)
    ∧ (∀ item, extractImageUrlObsidian item = item.image.bind assetCandidatesClaim)
    ∧ (∀ item, extractImageUrl item = none ↔
        (item.image.bind primaryCandidates = none ∧
         (item.latest_version.bind ZLatestVersion.image).bind secondaryCandidates = none ∧
         (firstImage item.images).bind secondaryCandidates = none))
    ∧ (∀ (item : ZEntity) (asset : ZAsset) (th : Thumbnails) (u mu : String),
        item.image = some asset → asset.thumbnails = some th →
        th.large = some u → th.medium = some mu →
        extractImageUrl item = some u)
    ∧ (∀ (item : ZEntity) (ou : String),
        item.image = some ⟨none, some ou, none⟩ →
        extractImageUrl item = some ou)
    ∧ (∀ item : ZEntity, item.image = none → item.latest_version = none →
        item.images = none → extractImageUrl item = none) := by
  refine ⟨fun _ => rfl, fun _ => rfl, ?_, ?_, ?_, ?_⟩
  · intro item
    rw [extractImageUrl]
    rcases hp : item.image.bind primaryCandidates with _ | u <;>
      rcases hl : (item.latest_version.bind ZLatestVersion.image).bind secondaryCandidates
          with _ | v <;>
      rcases hf : (firstImage item.images).bind secondaryCandidates with _ | w <;>
      simp
  · intro item asset th u mu h1 h2 h3 _h4
    simp [extractImageUrl, primaryCandidates, h1, h2, h3]
  · intro item ou h1
    simp [extractImageUrl, primaryCandidates, h1]
  · intro item h1 h2 h3
    simp [extractImageUrl, h1, h2, h3, firstImage]

/-- Witness for claim C3's amended theorem: the large thumbnail wins over a
present medium thumbnail on a concrete entity. -/
theorem extractImageUrl_amended_witness :
    ((⟨"i1", "X", none, some ⟨none, none, some ⟨none, some "MED", some "LARGE"⟩⟩,
        none, none, 0, 0, none, none⟩ : ZEntity).image =
      some ⟨none, none, some ⟨none, some "MED", some "LARGE"⟩⟩) ∧
    extractImageUrl
      ⟨"i1", "X", none, some ⟨none, none, some ⟨none, some "MED", some "LARGE"⟩⟩,
        none, none, 0, 0, none, none⟩ = some "LARGE" :=
  ⟨rfl, extractImageUrl_amended.2.2.2.1
    ⟨"i1", "X", none, some ⟨none, none, some ⟨none, some "MED", some "LARGE"⟩⟩,
      none, none, 0, 0, none, none⟩
    ⟨none, none, some ⟨none, some "MED", some "LARGE"⟩⟩
    ⟨none, some "MED", some "LARGE"⟩ "LARGE" "MED" rfl rfl rfl rfl⟩

/-! ## Claim C6: rendered content field order -/

lemma join_nil : String.join [] = "" := rfl

lemma join_cons (s : String) (l : List String) :
    String.join (s :: l) = s ++ String.join l := by
  apply String.ext
  simp [String.data_join]

/-- Counterexample to claim C6 as stated: the Logseq screen-page child
blocks put the deep link first and the description (claim field 4) before
the tags (claim field 2), and contain neither a type label (claim field 1)
nor a trailing sync-provenance line (claim field 6). -/
theorem screenPageChildren_counterexample :
    screenPageChildrenContents c6cfg (fun _ => Except.error "offline") c6proj c6screen =
      ["**Zeplin URL:** [View in Zeplin](https://app.zeplin.io/project/p6/screen/s6)",
       "**Description:** A login screen", "**Tags:** #mobile", "**Section:** Auth"] ∧
    (screenPageChildrenContents c6cfg (fun _ => Except.error "offline") c6proj c6screen).findIdx
      (fun c => c.data.take 16 = "**Description:**".data) = 1 ∧
    (screenPageChildrenContents c6cfg (fun _ => Except.error "offline") c6proj c6screen).findIdx
      (fun c => c.data.take 9 = "**Tags:**".data) = 2 ∧
    ∀ c ∈ screenPageChildrenContents c6cfg (fun _ => Except.error "offline") c6proj c6screen,
      ¬ c.data.take 9 = "**Type:**".data ∧
      ¬ c.data.take 19 = "*Synced from Zeplin".data := by
  refine ⟨?_, ?_, ?_, ?_⟩ <;> decide

/-- Claim C6 as amended: the Obsidian markdown builders render exactly the
claim's fields in the claimed order (type label with section, tags for
screens, deep link, non-empty description, image with the entity name as
alt text, trailing provenance line, absent fields omitted), while the
Logseq screen-page child blocks are ordered deep link, description, tags,
section, image. -/
theorem buildMarkdown_field_order :
    (∀ (p : ZeplinProject) (s : ZEntity) (ts : String),
      buildScreenMarkdown p s ts = String.join (screenClaimFields p s ts))
    ∧ (∀ (p : ZeplinProject) (c : ZEntity) (ts : String),
      buildComponentMarkdown p c ts = String.join (componentClaimFields p c ts)) := by
  constructor
  · intro p s ts
    rw [buildScreenMarkdown, screenClaimFields]
    rcases s.«section» with _ | sec <;>
      rcases s.tags with _ | tl <;>
      rcases s.description with _ | d <;>
      rcases extractImageUrlObsidian s with _ | u <;>
      simp only [List.cons_append, List.nil_append, List.append_nil, List.singleton_append,
        join_cons, join_nil, String.append_empty, String.empty_append, String.append_assoc,
        if_true, if_false, ite_true, ite_false]
    all_goals try (by_cases hd : d = "" <;>
      simp only [hd, List.cons_append, List.nil_append, List.append_nil, List.singleton_append,
        join_cons, join_nil, String.append_empty, String.empty_append, String.append_assoc,
        if_true, if_false, ite_true, ite_false])
    all_goals try (by_cases htl : tl.length > 0 <;>
      simp only [htl, List.cons_append, List.nil_append, List.append_nil, List.singleton_append,
        join_cons, join_nil, String.append_empty, String.empty_append, String.append_assoc,
        if_true, if_false, ite_true, ite_false])
  · intro p c ts
    rw [buildComponentMarkdown, componentClaimFields]
    rcases c.«section» with _ | sec <;>
      rcases c.description with _ | d <;>
      rcases extractImageUrlObsidian c with _ | u <;>
      simp only [List.cons_append, List.nil_append, List.append_nil, List.singleton_append,
        join_cons, join_nil, String.append_empty, String.empty_append, String.append_assoc,
        if_true, if_false, ite_true, ite_false]
    all_goals by_cases hd : d = "" <;>
      simp only [hd, List.cons_append, List.nil_append, List.append_nil, List.singleton_append,
        join_cons, join_nil, String.append_empty, String.empty_append, String.append_assoc,
        if_true, if_false, ite_true, ite_false]

/-! ## Claim C7: typed remote failures and propagation -/

lemma except_bind_ok {α β : Type} (a : α) (f : α → Except String β) :
    (Except.ok a : Except String α) >>= f = f a := rfl

lemma except_bind_error {α β : Type} (e : String) (f : α → Except String β) :
    (Except.error e : Except String α) >>= f = Except.error e := rfl

/-- Counterexample to claim C7 as stated: `testConnection` does not raise
the categorized failure when the request fails with 401 — it swallows the
error and returns `false`. -/
theorem testConnection_counterexample :
    testConnectionModel
      (Except.error (AxiosFailure.response 401 none "Request failed with status code 401"))
      = Except.ok false ∧
    handleError (AxiosFailure.response 401 none "Request failed with status code 401")
      = "Invalid Zeplin API token. Please check your settings." :=
  ⟨rfl, rfl⟩

/-- Claim C7 as amended: every client getter raises a failure whose message
is determined by the status-derived category (401 unauthorized, 403
forbidden, 404 not-found, 429 rate-limited, no response transport-unreachable,
other otherwise), and the orchestrator propagates a failing fetch unchanged,
aborting the run — but `testConnection` converts any failure into a `false`
return value instead of raising it. -/
theorem zeplinClient_error_propagation :
    (∀ e : AxiosFailure, handleError e = categoryMessage (errorCategory e) e)
    ∧ (∀ (α : Type) (e : AxiosFailure),
        clientOp (α := α) (Except.error e) = Except.error (handleError e))
    ∧ (∀ (ops : ClientOps) (cfg : PluginConfig) (now : Nat) (pid : String) (st : St)
        (e : String), ops.getProject pid = Except.error e →
        syncProjectM ops cfg now pid st = Except.error e)
    ∧ (∀ (ops : ClientOps) (cfg : PluginConfig) (now : Nat) (pid : String) (st : St)
        (p : ZeplinProject) (e : String),
        ops.getProject pid = Except.ok p → 0 < p.number_of_components →
        ops.getComponents p.id = Except.error e →
        syncProjectM ops cfg now pid st = Except.error e)
    ∧ (∀ e : AxiosFailure,
        testConnectionModel (Except.error e) = Except.ok false) := by
  refine ⟨?_, fun _ _ => rfl, ?_, ?_, fun _ => rfl⟩
  · intro e
    cases e with
    | response status dm em =>
      simp only [handleError, errorCategory]
      split_ifs <;> rfl
    | request em => rfl
    | setup em => rfl
  · intro ops cfg now pid st e h
    simp only [syncProjectM]
    rw [h]
    rfl
  · intro ops cfg now pid st p e hp hc he
    simp only [syncProjectM, syncComponentsM, hp, except_bind_ok]
    rw [if_pos hc]
    simp only [he, except_bind_error]

/-- Witness for claim C7's amended theorem: a concrete failing `getProject`
aborts the sync with the categorized message unchanged. -/
theorem zeplinClient_error_propagation_witness :
    c7ops.getProject "p" =
      Except.error "Invalid Zeplin API token. Please check your settings." ∧
    syncProjectM c7ops c7cfg 0 "p" St.empty =
      Except.error "Invalid Zeplin API token. Please check your settings." :=
  ⟨rfl, zeplinClient_error_propagation.2.2.1 c7ops c7cfg 0 "p" St.empty
    "Invalid Zeplin API token. Please check your settings." rfl⟩

/-! ## Claim C9: upsertBlock frame property on the existing-block path -/

lemma find?_map_setKey {k k' : String} (hne : k' ≠ k) (v : PVal) :
    ∀ ps : Props,
      List.find? (fun kv => kv.1 = k') (ps.map (fun kv => if kv.1 = k then (k, v) else kv))
        = List.find? (fun kv => kv.1 = k') ps
  | [] => rfl
  | kv :: rest => by
    by_cases hkv : kv.1 = k
    · have e1 : (decide ((k, v).1 = k')) = false := decide_eq_false (Ne.symm hne)
      have e2 : (decide (kv.1 = k')) = false :=
        decide_eq_false (by rw [hkv]; exact Ne.symm hne)
      simp only [List.map_cons, List.find?_cons, if_pos hkv, e1, e2]
      exact find?_map_setKey hne v rest
    · simp only [List.map_cons, List.find?_cons, if_neg hkv]
      cases hd : (decide (kv.1 = k')) <;> simp only [hd]
      exact find?_map_setKey hne v rest

lemma find?_append_setKey {k k' : String} (hne : k' ≠ k) (v : PVal) :
    ∀ ps : Props,
      List.find? (fun kv => kv.1 = k') (ps ++ [(k, v)])
        = List.find? (fun kv => kv.1 = k') ps
  | [] => by
    have e1 : (decide ((k, v).1 = k')) = false := decide_eq_false (Ne.symm hne)
    simp only [List.nil_append, List.find?_cons, e1, List.find?_nil]
  | kv :: rest => by
    simp only [List.cons_append, List.find?_cons]
    cases hd : (decide (kv.1 = k')) <;> simp only [hd]
    exact find?_append_setKey hne v rest

/-- Writing one property key leaves lookups of every other key unchanged. -/
lemma lookupProp_setProp_ne {k k' : String} (hne : k' ≠ k) (ps : Props) (v : PVal) :
    lookupProp (setProp ps k v) k' = lookupProp ps k' := by
  rw [setProp, lookupProp, lookupProp]
  by_cases hany : ps.any (fun kv => kv.1 = k)
  · rw [if_pos hany, find?_map_setKey hne v ps]
  · rw [if_neg hany, find?_append_setKey hne v ps]

lemma upsertBlock_existing_eq (st : St) (now : Nat)
    (parent content zid : String) (props : Props) (children : List BlockCreateInput)
    (u : String) (h : findBlockByZeplinId st zid = some u) :
    upsertBlock st now parent content zid (some props) children =
      (⟨st.pages,
        st.blks.map (fun b => if b.uuid = u then
          ⟨b.uuid, b.parent, content, setProp b.props "zeplin-updated" (PVal.num now)⟩
        else b),
        st.counter⟩, some u) := by
  have h0 := h
  rw [findBlockByZeplinId] at h
  obtain ⟨bk, hfind, hbku⟩ := Option.map_eq_some'.mp h
  have hmem : bk ∈ st.blks := List.mem_of_find?_eq_some hfind
  have hget : ∃ y, getBlock (updateBlock st u content) u = some y := by
    rw [getBlock, updateBlock]
    simp only [List.find?_map]
    have hpf : ((fun b : Blk => decide (b.uuid = u)) ∘
        (fun b : Blk => if b.uuid = u then Blk.mk b.uuid b.parent content b.props else b))
        = fun b : Blk => decide (b.uuid = u) := by
      funext b
      by_cases hb : b.uuid = u <;> simp [hb]
    rw [hpf]
    have hsome : (st.blks.find? (fun b => decide (b.uuid = u))).isSome := by
      rw [List.find?_isSome]
      exact ⟨bk, hmem, by simp [hbku]⟩
    obtain ⟨z, hz⟩ := Option.isSome_iff_exists.mp hsome
    exact ⟨_, by rw [hz]; rfl⟩
  obtain ⟨y, hy⟩ := hget
  rw [upsertBlock, h0]
  simp only [hy]
  rw [upsertBlockProperty, updateBlock]
  simp only [List.map_map, Prod.mk.injEq, St.mk.injEq]
  refine ⟨⟨trivial, ?_, trivial⟩, trivial⟩
  apply List.map_congr_left
  intro b _
  by_cases hb : b.uuid = u <;> simp [hb, Function.comp]

/-- Claim C9 (confirmed): when a block with the given remote ID exists,
`upsertBlock` only replaces that block's content and refreshes its
`zeplin-updated` property — it creates none of the supplied children,
leaves `zeplin-synced` alone, inserts no new block anywhere, and returns
the existing block's uuid. -/
theorem upsertBlock_existing_frame (st : St) (now : Nat)
    (parent content zid : String) (props : Props) (children : List BlockCreateInput)
    (u : String) (h : findBlockByZeplinId st zid = some u) :
    UpsertExistingFrame st now parent content zid props children u := by
  have hmain := upsertBlock_existing_eq st now parent content zid props children u h
  refine ⟨hmain, ?_, ?_, ?_, ?_⟩
  · rw [hmain]
    exact List.length_map _ _
  · rw [hmain]
  · rw [hmain]
  · intro b _
    exact lookupProp_setProp_ne (by decide) b.props (PVal.num now)

/-- Witness for claim C9's theorem on a concrete one-block store. -/
theorem upsertBlock_existing_frame_witness :
    findBlockByZeplinId c9Store "c1" = some "b1" ∧
    UpsertExistingFrame c9Store 9 "root" "B" "c1" [] [] "b1" :=
  ⟨rfl, upsertBlock_existing_frame c9Store 9 "root" "B" "c1" [] [] "b1" rfl⟩

/-! ## Claim C1: one local unit per remote ID across re-syncs -/

/-- Evaluation of the code at claim C1's failing input: syncing the same
one-screen project twice.  After the first run exactly one block carries
`zeplin-id = s1` (the index-page link block created by `syncScreenAsPage`
with plain `createBlock`); after the second run there are two such blocks,
because the link block is created again instead of being found and updated
— contradicting the claimed invariant of exactly one local unit per remote
ID. -/
theorem syncProject_rerun_duplicates_screen_link :
    (syncProjectM c1ops c1cfg 0 "p1" St.empty).map
      (fun st => countBlocksWithZeplinId st "s1") = Except.ok 1 ∧
    ((syncProjectM c1ops c1cfg 0 "p1" St.empty).bind
      (syncProjectM c1ops c1cfg 1 "p1")).map
      (fun st => countBlocksWithZeplinId st "s1") = Except.ok 2 := by
  constructor <;> rfl

/-! ## Claim C4: inline image fetch failure -/

/-- Evaluation of the code at claim C4's failing input: image storage mode
`inline` with a failing image fetch.  `downloadAndFormatImage` returns
`none` (the fetch failure is swallowed by `downloadImage` before the
direct-URL fallback in the catch block can fire), so the component's unit
is created with no child blocks at all — the sync does not abort, but the
content contains no direct-URL image reference either. -/
theorem inline_fetch_failure_drops_image :
    downloadAndFormatImage ImageStorage.inline (Except.error "Network Error")
      "Btn" "https://img.example/x.png" = none ∧
    (syncProjectM c4ops c4cfg 0 "p2" St.empty).map
      (fun st => (countBlocksWithZeplinId st "c2", childContentsOfZeplinId st "c2"))
      = Except.ok (1, []) := by
  constructor <;> rfl

/-! ## Claim C2: exclusion filter semantics -/

lemma starLoop_split {k : List Char → Bool} :
    ∀ cs, starLoop k cs = true →
      ∃ pre post, cs = pre ++ post ∧ (∀ c ∈ pre, isLineTerm c = false) ∧ k post = true := by
  intro cs
  induction cs with
  | nil =>
    intro h
    exact ⟨[], [], rfl, by simp, h⟩
  | cons x xs ih =>
    intro h
    rw [starLoop] at h
    rcases Bool.or_eq_true_iff.mp h with h1 | h2
    · exact ⟨[], x :: xs, rfl, by simp, h1⟩
    · obtain ⟨hx, hrest⟩ := Bool.and_eq_true_iff.mp h2
      obtain ⟨pre, post, heq, hpre, hk⟩ := ih hrest
      refine ⟨x :: pre, post, by rw [heq]; rfl, ?_, hk⟩
      intro c hc
      rcases List.mem_cons.mp hc with rfl | hc'
      · simpa using hx
      · exact hpre c hc'

lemma starLoop_of_k {k : List Char → Bool} {post : List Char} (hk : k post = true) :
    ∀ pre, (∀ c ∈ pre, isLineTerm c = false) → starLoop k (pre ++ post) = true := by
  intro pre
  induction pre with
  | nil =>
    intro _
    cases post with
    | nil => exact hk
    | cons x xs => rw [List.nil_append, starLoop, hk]; rfl
  | cons c pre' ih =>
    intro hpre
    rw [List.cons_append, starLoop]
    have hc : isLineTerm c = false := hpre c (List.mem_cons_self c pre')
    have htail : starLoop k (pre' ++ post) = true :=
      ih (fun d hd => hpre d (List.mem_cons_of_mem c hd))
    rw [hc, htail]
    simp

/-- The executable matcher implies the declarative matching relation. -/
lemma matchTokens_sound : ∀ (ts : List GTok) (cs : List Char),
    matchTokens ts cs = true → GlobMatches ts cs := by
  intro ts
  induction ts with
  | nil =>
    intro cs h
    rw [matchTokens] at h
    cases cs with
    | nil => exact GlobMatches.nil
    | cons x xs => simp [List.isEmpty] at h
  | cons t ts ih =>
    intro cs h
    cases t with
    | lit c =>
      cases cs with
      | nil => simp [matchTokens] at h
      | cons x xs =>
        rw [matchTokens] at h
        obtain ⟨h1, h2⟩ := Bool.and_eq_true_iff.mp h
        exact GlobMatches.lit h1 (ih xs h2)
    | anyOne =>
      cases cs with
      | nil => simp [matchTokens] at h
      | cons x xs =>
        rw [matchTokens] at h
        obtain ⟨h1, h2⟩ := Bool.and_eq_true_iff.mp h
        exact GlobMatches.one (by simpa using h1) (ih xs h2)
    | star =>
      rw [matchTokens] at h
      obtain ⟨pre, post, heq, hpre, hk⟩ := starLoop_split cs h
      rw [heq]
      exact GlobMatches.star hpre (ih post hk)

/-- The declarative matching relation implies the executable matcher. -/
lemma matchTokens_complete : ∀ {ts : List GTok} {cs : List Char},
    GlobMatches ts cs → matchTokens ts cs = true := by
  intro ts cs h
  induction h with
  | nil => rfl
  | lit hceq _ ih => rw [matchTokens]; rw [hceq, ih]; rfl
  | one hlt _ ih => rw [matchTokens]; rw [hlt, ih]; rfl
  | star hpre _ ih => exact starLoop_of_k ih _ hpre

/-- Counterexample to claim C2 as stated: the pattern `?` does not match
the one-character name consisting of a line feed (JS regex `.` skips line
terminators), although the claim's glob semantics (`?` matches any single
character) matches it. -/
theorem shouldExclude_counterexample :
    shouldExclude ["?"] "\n" = false ∧
    claimGlobMatch (globTokens "?") "\n".data = true ∧
    "\n".data.length = 1 := by
  refine ⟨?_, ?_, ?_⟩ <;> decide

/-- Claim C2 as amended: the filter returns true iff some pattern, compiled
to an anchored case-insensitive glob in which `*` matches any run of
non-line-terminator characters, `?` matches any single non-line-terminator
character and every other regex metacharacter is literal, matches the whole
name; the empty pattern set excludes nothing. -/
theorem shouldExclude_spec :
    (∀ (patterns : List String) (name : String),
      shouldExclude patterns name = true ↔
        ∃ p ∈ patterns, GlobMatches (globTokens p) name.data)
    ∧ (∀ name, shouldExclude [] name = false) := by
  constructor
  · intro patterns name
    rw [shouldExclude]
    by_cases hlen : patterns.length = 0
    · rw [if_pos hlen]
      rw [List.length_eq_zero] at hlen
      subst hlen
      simp
    · rw [if_neg hlen]
      rw [List.any_eq_true]
      constructor
      · rintro ⟨p, hp, hm⟩
        exact ⟨p, hp, matchTokens_sound _ _ hm⟩
      · rintro ⟨p, hp, hm⟩
        exact ⟨p, hp, matchTokens_complete hm⟩
  · intro name
    rfl

/-! ## Claim C8: sanitizePath idempotence -/

lemma collapseWs_nil (b : Bool) : collapseWs b [] = [] := by cases b <;> rfl

lemma collapseWs_cons_ws_true {x : Char} (hx : jsWs x = true) (xs : List Char) :
    collapseWs true (x :: xs) = collapseWs true xs := by
  rw [collapseWs, if_pos hx, if_pos rfl]

lemma collapseWs_cons_ws_false {x : Char} (hx : jsWs x = true) (xs : List Char) :
    collapseWs false (x :: xs) = ' ' :: collapseWs true xs := by
  rw [collapseWs, if_pos hx, if_neg (by simp)]

lemma collapseWs_cons_nws {x : Char} (hx : jsWs x = false) (b : Bool) (xs : List Char) :
    collapseWs b (x :: xs) = x :: collapseWs false xs := by
  rw [collapseWs, if_neg (by simp [hx])]

lemma collapseWs_mem : ∀ (b : Bool) (l : List Char) (c : Char),
    c ∈ collapseWs b l → c = ' ' ∨ c ∈ l := by
  intro b l
  induction l generalizing b with
  | nil => intro c h; rw [collapseWs_nil] at h; simp at h
  | cons x xs ih =>
    intro c h
    by_cases hx : jsWs x
    · cases b with
      | true =>
        rw [collapseWs_cons_ws_true hx] at h
        rcases ih true c h with h1 | h2
        · exact Or.inl h1
        · exact Or.inr (List.mem_cons_of_mem x h2)
      | false =>
        rw [collapseWs_cons_ws_false hx] at h
        rcases List.mem_cons.mp h with rfl | h'
        · exact Or.inl rfl
        · rcases ih true c h' with h1 | h2
          · exact Or.inl h1
          · exact Or.inr (List.mem_cons_of_mem x h2)
    · rw [collapseWs_cons_nws (eq_false_of_ne_true hx) b] at h
      rcases List.mem_cons.mp h with rfl | h'
      · exact Or.inr (List.mem_cons_self c xs)
      · rcases ih false c h' with h1 | h2
        · exact Or.inl h1
        · exact Or.inr (List.mem_cons_of_mem x h2)

lemma collapseWs_ws_space : ∀ (b : Bool) (l : List Char) (c : Char),
    c ∈ collapseWs b l → jsWs c = true → c = ' ' := by
  intro b l
  induction l generalizing b with
  | nil => intro c h; rw [collapseWs_nil] at h; simp at h
  | cons x xs ih =>
    intro c h hws
    by_cases hx : jsWs x
    · cases b with
      | true =>
        rw [collapseWs_cons_ws_true hx] at h
        exact ih true c h hws
      | false =>
        rw [collapseWs_cons_ws_false hx] at h
        rcases List.mem_cons.mp h with rfl | h'
        · rfl
        · exact ih true c h' hws
    · rw [collapseWs_cons_nws (eq_false_of_ne_true hx) b] at h
      rcases List.mem_cons.mp h with rfl | h'
      · rw [hws] at hx; exact absurd rfl hx
      · exact ih false c h' hws

lemma collapseWs_head_true : ∀ (l : List Char) (h : Char),
    (collapseWs true l).head? = some h → jsWs h = false := by
  intro l
  induction l with
  | nil => intro h hh; rw [collapseWs_nil] at hh; simp at hh
  | cons x xs ih =>
    intro h hh
    by_cases hx : jsWs x
    · rw [collapseWs_cons_ws_true hx] at hh
      exact ih h hh
    · rw [collapseWs_cons_nws (eq_false_of_ne_true hx) true] at hh
      simp only [List.head?_cons, Option.some.injEq] at hh
      rw [← hh]
      exact eq_false_of_ne_true hx

lemma collapseWs_chain : ∀ (b : Bool) (l : List Char),
    (collapseWs b l).Chain' noWsPair := by
  intro b l
  induction l generalizing b with
  | nil => rw [collapseWs_nil]; exact List.chain'_nil
  | cons x xs ih =>
    by_cases hx : jsWs x
    · cases b with
      | true => rw [collapseWs_cons_ws_true hx]; exact ih true
      | false =>
        rw [collapseWs_cons_ws_false hx]
        rw [List.chain'_cons']
        refine ⟨?_, ih true⟩
        intro y hy
        have hyf : jsWs y = false := collapseWs_head_true xs y hy
        rw [noWsPair, hyf]
        simp
    · rw [collapseWs_cons_nws (eq_false_of_ne_true hx) b]
      rw [List.chain'_cons']
      refine ⟨?_, ih false⟩
      intro y _
      rw [noWsPair, eq_false_of_ne_true hx]
      simp

lemma collapseWs_flag_eq : ∀ (cs : List Char),
    (∀ h, cs.head? = some h → jsWs h = false) →
    collapseWs true cs = collapseWs false cs := by
  intro cs hhead
  cases cs with
  | nil => rw [collapseWs_nil, collapseWs_nil]
  | cons d ds =>
    have hd : jsWs d = false := hhead d rfl
    rw [collapseWs_cons_nws hd true, collapseWs_cons_nws hd false]

lemma collapseWs_fix : ∀ l : List Char,
    (∀ c ∈ l, jsWs c = true → c = ' ') → l.Chain' noWsPair →
    collapseWs false l = l := by
  intro l
  induction l with
  | nil => intro _ _; rw [collapseWs_nil]
  | cons c cs ih =>
    intro hsp hch
    have hch' : cs.Chain' noWsPair := hch.tail
    by_cases hc : jsWs c
    · have hcsp : c = ' ' := hsp c (List.mem_cons_self c cs) hc
      rw [collapseWs_cons_ws_false hc]
      have hhead : ∀ h, cs.head? = some h → jsWs h = false := by
        intro h hh
        have hp := List.chain'_cons'.mp hch
        have := hp.1 h hh
        rw [noWsPair, hc] at this
        simpa using this
      rw [collapseWs_flag_eq cs hhead]
      rw [ih (fun d hd hws => hsp d (List.mem_cons_of_mem c hd) hws) hch']
      rw [hcsp]
    · rw [collapseWs_cons_nws (eq_false_of_ne_true hc) false]
      rw [ih (fun d hd hws => hsp d (List.mem_cons_of_mem c hd) hws) hch']

lemma chain'_dropWhile {R : Char → Char → Prop} {p : Char → Bool} :
    ∀ l : List Char, l.Chain' R → (l.dropWhile p).Chain' R := by
  intro l
  induction l with
  | nil => intro _; exact List.chain'_nil
  | cons x xs ih =>
    intro h
    rw [List.dropWhile]
    by_cases hx : p x
    · rw [hx]
      exact ih h.tail
    · rw [eq_false_of_ne_true hx]
      exact h

lemma head?_dropWhile_false {p : Char → Bool} :
    ∀ (l : List Char) (h : Char), (l.dropWhile p).head? = some h → p h = false := by
  intro l
  induction l with
  | nil => intro h hh; simp [List.dropWhile] at hh
  | cons x xs ih =>
    intro h hh
    rw [List.dropWhile] at hh
    by_cases hx : p x
    · rw [hx] at hh
      exact ih h hh
    · rw [eq_false_of_ne_true hx] at hh
      simp only [List.head?_cons, Option.some.injEq] at hh
      rw [← hh]
      exact eq_false_of_ne_true hx

lemma dropWhile_eq_self_of_head {p : Char → Bool} :
    ∀ l : List Char, (∀ h, l.head? = some h → p h = false) → l.dropWhile p = l := by
  intro l hhead
  cases l with
  | nil => rfl
  | cons x xs =>
    rw [List.dropWhile, hhead x rfl]

lemma dropWhile_idem {p : Char → Bool} (l : List Char) :
    (l.dropWhile p).dropWhile p = l.dropWhile p :=
  dropWhile_eq_self_of_head _ (head?_dropWhile_false l)

lemma replaceIllegal_no_illegal (l : List Char) :
    ∀ c ∈ replaceIllegal l, isIllegalChar c = false := by
  intro c hc
  rw [replaceIllegal] at hc
  obtain ⟨x, _, hx⟩ := List.mem_map.mp hc
  by_cases hi : isIllegalChar x
  · rw [if_pos hi] at hx
    rw [← hx]
    decide
  · rw [if_neg hi] at hx
    rw [← hx]
    exact eq_false_of_ne_true hi

lemma replaceIllegal_id (l : List Char)
    (h : ∀ c ∈ l, isIllegalChar c = false) : replaceIllegal l = l := by
  rw [replaceIllegal]
  conv_rhs => rw [← List.map_id l]
  apply List.map_congr_left
  intro c hc
  rw [h c hc]
  rfl

lemma head?_append_left {α : Type} :
    ∀ (l1 l2 : List α) (h : α), l1.head? = some h → (l1 ++ l2).head? = some h := by
  intro l1 l2 h hh
  cases l1 with
  | nil => simp at hh
  | cons a t =>
    rw [List.cons_append]
    exact hh

lemma sanitizeList_idem (l : List Char) :
    sanitizeList (sanitizeList l) = sanitizeList l := by
  set m : List Char := replaceIllegal l with hm
  set cm : List Char := collapseWs false m with hcm
  set w : List Char := trimLeftWs cm with hw
  set y : List Char := trimRightWs w with hy
  have hwdef : w = cm.dropWhile jsWs := rfl
  have hrev : y.reverse = w.reverse.dropWhile jsWs := by
    rw [hy, trimRightWs, List.reverse_reverse]
  have hmemyw : ∀ c ∈ y, c ∈ w := by
    intro c hc
    have h1 : c ∈ y.reverse := List.mem_reverse.mpr hc
    rw [hrev] at h1
    have h2 : c ∈ w.reverse := (List.dropWhile_sublist jsWs).subset h1
    exact List.mem_reverse.mp h2
  have hmemwcm : ∀ c ∈ w, c ∈ cm := by
    intro c hc
    rw [hwdef] at hc
    exact (List.dropWhile_sublist jsWs).subset hc
  have F1 : ∀ c ∈ y, isIllegalChar c = false := by
    intro c hc
    have hcm' : c ∈ cm := hmemwcm c (hmemyw c hc)
    rcases collapseWs_mem false m c hcm' with rfl | hmem
    · decide
    · exact replaceIllegal_no_illegal l c hmem
  have F2 : ∀ c ∈ y, jsWs c = true → c = ' ' := by
    intro c hc hws
    exact collapseWs_ws_space false m c (hmemwcm c (hmemyw c hc)) hws
  have hchcm : cm.Chain' noWsPair := collapseWs_chain false m
  have hchw : w.Chain' noWsPair := by
    rw [hwdef]
    exact chain'_dropWhile cm hchcm
  have hsymm : ∀ a b : Char, noWsPair a b → noWsPair b a := by
    intro a b hab
    rw [noWsPair] at hab ⊢
    rw [Bool.and_comm]
    exact hab
  have hchwrev : w.reverse.Chain' noWsPair := by
    rw [List.chain'_reverse]
    exact hchw.imp (fun {a b} hab => hsymm a b hab)
  have hchyrev : y.reverse.Chain' noWsPair := by
    rw [hrev]
    exact chain'_dropWhile w.reverse hchwrev
  have F3 : y.Chain' noWsPair := by
    have h1 : (y.reverse).Chain' noWsPair := hchyrev
    rw [List.chain'_reverse] at h1
    exact h1.imp (fun {a b} hab => hsymm b a hab)
  have HeadW : ∀ h, w.head? = some h → jsWs h = false := by
    rw [hwdef]
    exact head?_dropWhile_false cm
  have hsplit : w = y ++ (w.reverse.takeWhile jsWs).reverse := by
    have h1 : w.reverse.takeWhile jsWs ++ w.reverse.dropWhile jsWs = w.reverse :=
      List.takeWhile_append_dropWhile jsWs w.reverse
    conv_lhs => rw [← List.reverse_reverse w, ← h1]
    rw [List.reverse_append, ← hrev, List.reverse_reverse]
  have HeadY : ∀ h, y.head? = some h → jsWs h = false := by
    intro h hh
    apply HeadW h
    rw [hsplit]
    exact head?_append_left y _ h hh
  have E1 : replaceIllegal y = y := replaceIllegal_id y F1
  have E2 : collapseWs false y = y := collapseWs_fix y F2 F3
  have E3 : trimLeftWs y = y := dropWhile_eq_self_of_head y HeadY
  have E4 : trimRightWs y = y := by
    rw [trimRightWs]
    calc (y.reverse.dropWhile jsWs).reverse
        = ((w.reverse.dropWhile jsWs).dropWhile jsWs).reverse := by rw [hrev]
      _ = (w.reverse.dropWhile jsWs).reverse := by rw [dropWhile_idem]
      _ = y.reverse.reverse := by rw [hrev]
      _ = y := y.reverse_reverse
  show sanitizeList y = y
  rw [sanitizeList, E1, E2, E3, E4]

/-- Claim C8 (confirmed): path-segment sanitization — replace each of
`/ \ : * ? " < > |` with a hyphen, collapse whitespace runs, trim both
ends — is idempotent: `sanitize(sanitize(x)) = sanitize(x)` for every
string `x`. -/
theorem sanitizePath_idem (s : String) :
    sanitizePath (sanitizePath s) = sanitizePath s :=
  congrArg String.mk (sanitizeList_idem s.data)

/-! ## Claim C10: retry with exponential backoff -/

lemma retryGo_eq_ok {E A : Type} {fn : Nat → Except E A} {o : RetryOptions}
    {a : Nat} {v : A} (hfa : fn a = Except.ok v) :
    retryGo fn o a = ⟨Except.ok v, 1, []⟩ := by
  rw [retryGo, hfa]

lemma retryGo_eq_error_last {E A : Type} {fn : Nat → Except E A} {o : RetryOptions}
    {a : Nat} {e : E} (hfa : fn a = Except.error e) (h : ¬ a < o.maxAttempts) :
    retryGo fn o a = ⟨Except.error e, 1, []⟩ := by
  rw [retryGo, hfa]
  dsimp only
  rw [dif_neg h]

lemma retryGo_eq_error_step {E A : Type} {fn : Nat → Except E A} {o : RetryOptions}
    {a : Nat} {e : E} (hfa : fn a = Except.error e) (h : a < o.maxAttempts) :
    retryGo fn o a = ⟨(retryGo fn o (a + 1)).result, (retryGo fn o (a + 1)).calls + 1,
      delayFor o a :: (retryGo fn o (a + 1)).delays⟩ := by
  rw [retryGo, hfa]
  dsimp only
  rw [dif_pos h]

lemma retryGo_calls_pos {E A : Type} (fn : Nat → Except E A) (o : RetryOptions)
    (a : Nat) : 1 ≤ (retryGo fn o a).calls := by
  cases hfa : fn a with
  | ok v => rw [retryGo_eq_ok hfa]
  | error e =>
    by_cases h : a < o.maxAttempts
    · rw [retryGo_eq_error_step hfa h]
      dsimp only
      omega
    · rw [retryGo_eq_error_last hfa h]

lemma retryGo_spec {E A : Type} (fn : Nat → Except E A) (o : RetryOptions) :
    ∀ (d a : Nat), o.maxAttempts - a = d → 1 ≤ a → a ≤ o.maxAttempts →
      ((retryGo fn o a).calls ≤ o.maxAttempts - a + 1)
      ∧ (∀ k v, a ≤ k → k ≤ o.maxAttempts →
          (∀ i, a ≤ i → i < k → ∃ e, fn i = Except.error e) →
          fn k = Except.ok v →
          (retryGo fn o a).result = Except.ok v ∧ (retryGo fn o a).calls = k - a + 1)
      ∧ ((∀ i, a ≤ i → i ≤ o.maxAttempts → ∃ e, fn i = Except.error e) →
          (retryGo fn o a).calls = o.maxAttempts - a + 1 ∧
          ∀ e, fn o.maxAttempts = Except.error e →
            (retryGo fn o a).result = Except.error e)
      ∧ (retryGo fn o a).delays =
          (List.range ((retryGo fn o a).calls - 1)).map (fun j => delayFor o (a + j)) := by
  intro d
  induction d with
  | zero =>
    intro a hd h1 hle
    have ha : a = o.maxAttempts := by omega
    cases hfa : fn a with
    | ok v =>
      rw [retryGo_eq_ok hfa]
      dsimp only
      refine ⟨by omega, ?_, ?_, by simp⟩
      · intro k v' hak hkle hall hfk
        have hka : k = a := by
          by_contra hne
          obtain ⟨e, he⟩ := hall a (le_refl a) (lt_of_le_of_ne hak (fun h => hne h.symm))
          rw [hfa] at he
          cases he
        subst hka
        rw [hfa] at hfk
        cases hfk
        exact ⟨rfl, by omega⟩
      · intro hall
        obtain ⟨e, he⟩ := hall a (le_refl a) hle
        rw [hfa] at he
        cases he
    | error e =>
      rw [retryGo_eq_error_last hfa (by omega)]
      dsimp only
      refine ⟨by omega, ?_, ?_, by simp⟩
      · intro k v' hak hkle hall hfk
        have hka : k = a := by omega
        subst hka
        rw [hfa] at hfk
        cases hfk
      · intro _
        refine ⟨by omega, ?_⟩
        intro e' he'
        rw [← ha, hfa] at he'
        cases he'
        rfl
  | succ d ih =>
    intro a hd h1 hle
    have hlt : a < o.maxAttempts := by omega
    cases hfa : fn a with
    | ok v =>
      rw [retryGo_eq_ok hfa]
      dsimp only
      refine ⟨by omega, ?_, ?_, by simp⟩
      · intro k v' hak hkle hall hfk
        have hka : k = a := by
          by_contra hne
          obtain ⟨e, he⟩ := hall a (le_refl a) (lt_of_le_of_ne hak (fun h => hne h.symm))
          rw [hfa] at he
          cases he
        subst hka
        rw [hfa] at hfk
        cases hfk
        exact ⟨rfl, by omega⟩
      · intro hall
        obtain ⟨e, he⟩ := hall a (le_refl a) (by omega)
        rw [hfa] at he
        cases he
    | error e =>
      rw [retryGo_eq_error_step hfa hlt]
      dsimp only
      obtain ⟨ih1, ih2, ih3, ih4⟩ := ih (a + 1) (by omega) (by omega) (by omega)
      have hcp : 1 ≤ (retryGo fn o (a + 1)).calls := retryGo_calls_pos fn o (a + 1)
      refine ⟨by omega, ?_, ?_, ?_⟩
      · intro k v' hak hkle hall hfk
        have hka : a + 1 ≤ k := by
          rcases Nat.eq_or_lt_of_le hak with rfl | h
          · rw [hfa] at hfk; cases hfk
          · omega
        obtain ⟨hres, hcalls⟩ := ih2 k v' hka hkle
          (fun i hi1 hi2 => hall i (by omega) hi2) hfk
        exact ⟨hres, by omega⟩
      · intro hall
        obtain ⟨hcalls, hres⟩ := ih3 (fun i hi1 hi2 => hall i (by omega) hi2)
        exact ⟨by omega, fun e' he' => hres e' he'⟩
      · have hc1 : (retryGo fn o (a + 1)).calls + 1 - 1 = (retryGo fn o (a + 1)).calls := by
          omega
        rw [hc1]
        have hcs : (retryGo fn o (a + 1)).calls = ((retryGo fn o (a + 1)).calls - 1) + 1 := by
          omega
        rw [hcs, List.range_succ_eq_map, List.map_cons, List.map_map]
        rw [show delayFor o (a + 0) = delayFor o a from by rw [Nat.add_zero]]
        congr 1
        rw [ih4]
        apply List.map_congr_left
        intro j _
        show delayFor o (a + 1 + j) = delayFor o (a + (j + 1))
        congr 1
        omega

/-- Claim C10 (confirmed): for `maxAttempts = n ≥ 1`, `retry` invokes the
thunk at most `n` times, returns the result of the first successful
invocation, raises the error of the `n`-th invocation when all fail, and
sleeps `min(initialDelay * backoffMultiplier^(k-1), maxDelay)` before
attempt `k+1`, so no inter-attempt delay exceeds `maxDelay`. -/
lemma retryModel_eq {E A : Type} (fn : Nat → Except E A) (o : RetryOptions) :
    retryModel fn o = retryGo fn o 1 := rfl

theorem retry_contract {E A : Type} (fn : Nat → Except E A) (o : RetryOptions)
    (h : 1 ≤ o.maxAttempts) : RetryContract fn o := by
  obtain ⟨c1, c2, c3, c4⟩ :=
    retryGo_spec fn o (o.maxAttempts - 1) 1 (by omega) (le_refl 1) h
  refine ⟨by rw [retryModel_eq]; omega, ?_, ?_, ?_, ?_⟩
  · intro k v hk1 hkle hall hfk
    obtain ⟨hres, hcalls⟩ := c2 k v hk1 hkle hall hfk
    exact ⟨by rw [retryModel_eq]; exact hres, by rw [retryModel_eq]; omega⟩
  · intro hall
    obtain ⟨hcalls, hres⟩ := c3 hall
    exact ⟨by rw [retryModel_eq]; omega, by rw [retryModel_eq]; exact hres⟩
  · rw [retryModel_eq, c4]
    apply List.map_congr_left
    intro j _
    show delayFor o (1 + j) = delayFor o (j + 1)
    congr 1
    omega
  · intro x hx
    rw [retryModel_eq, c4] at hx
    obtain ⟨j, _, hj⟩ := List.mem_map.mp hx
    rw [← hj, delayFor]
    exact min_le_right _ _

/-- Witness for claim C10's theorem: three allowed attempts, first fails,
second succeeds. -/
theorem retry_contract_witness :
    1 ≤ retryWitnessOpts.maxAttempts ∧ RetryContract retryWitnessFn retryWitnessOpts :=
  ⟨by decide, retry_contract retryWitnessFn retryWitnessOpts (by decide)⟩

end ZeplinSync
